import Mathlib

/-!
# openai-scf-goproxy: the response dump of `main.go`

A shallow embedding of `drainBody`, `privateDumpResponse` and the
`proxy.ModifyResponse` hook of `main.go`, together with the parts of the Go
standard library they call (`io`, `bufio`, `compress/gzip`, `net/http`'s
`Response.Write`).  Readers are values: every operation that reads returns the
reader in the state the read left it in.
-/

namespace GoProxy

/-- A byte, kept as a natural number below 256. -/
abbrev Byte := Nat

/-- The bytes of an ASCII string literal. -/
def ascii (s : String) : List Byte := s.toList.map Char.toNat

/-- The error values that occur in the program. -/
inductive GoError where
  /-- The sentinel `errNoBody` (main.go:18) of `failureToReadBody`. -/
  | errNoBody
  /-- The value `io.EOF`. -/
  | EOF
  /-- The value `io.ErrUnexpectedEOF`. -/
  | ErrUnexpectedEOF
  /-- The value `io.ErrNoProgress`. -/
  | ErrNoProgress
  /-- The value `gzip.ErrHeader`. -/
  | gzipErrHeader
  /-- The error of `transferWriter.writeBody`:
  "http: ContentLength=%d with Body length %d". -/
  | contentLength (declared : Int) (copied : Nat)
  /-- The error of `transferWriter.writeHeader`: "invalid Trailer key". -/
  | invalidTrailerKey (key : String)
  /-- Any other error, raised by a stream that comes from the transport. -/
  | other (code : Nat)
  deriving DecidableEq, Repr

/-- The `io.ReadCloser` values that occur in the program, each with the state a
reader carries. -/
inductive Body where
  /-- The nil interface value. -/
  | nil
  /-- The marker `http.NoBody`. -/
  | noBody
  /-- A stream received from the transport: the bytes it still delivers, the
  error that ends the reading (`none` or `io.EOF` for a clean end), and the
  result of `Close`. -/
  | stream (data : List Byte) (readErr : Option GoError) (closeErr : Option GoError)
  /-- The `io.NopCloser` of an in-memory reader (`bytes.Buffer`, `bytes.Reader`,
  `strings.Reader`) over the unread bytes `data`. -/
  | mem (data : List Byte)
  /-- The value `failureToReadBody{}` (main.go:20-23). -/
  | failureToReadBody
  /-- The body `Response.Write` builds after its probe read one byte: an
  `io.MultiReader` of that byte and of the probed body, closed by the latter. -/
  | probed (first : Byte) (rest : Body)
  deriving DecidableEq, Repr

/-- One call `Read(p)` with `len(p) = n`, `n > 0`: the bytes delivered, the error
returned with them, the reader afterwards.  `failureToReadBody.Read` is
main.go:22.  The program never reads the nil value (it is replaced at
main.go:31 and main.go:60 before any read). -/
def Body.Read (n : Nat) : Body → List Byte × Option GoError × Body
  | .nil => ([], some .EOF, .nil)
  | .noBody => ([], some .EOF, .noBody)
  | .stream d re ce =>
    if d = [] then ([], some (re.getD .EOF), .stream [] re ce)
    else (d.take n, none, .stream (d.drop n) re ce)
  | .mem d =>
    if d = [] then ([], some .EOF, .mem [])
    else (d.take n, none, .mem (d.drop n))
  | .failureToReadBody => ([], some .errNoBody, .failureToReadBody)
  | .probed c rest => ([c], none, rest)

/-- Reading until the reader reports an error, as `bytes.Buffer.ReadFrom`,
`io.ReadAll` and `io.Copy` do: the bytes delivered, the error that ended the
reading unless it was `io.EOF`, the reader afterwards. -/
def Body.readToEnd : Body → List Byte × Option GoError × Body
  | .nil => ([], none, .nil)
  | .noBody => ([], none, .noBody)
  | .stream d re ce =>
    (d, (match re with | some .EOF => none | e => e), .stream [] re ce)
  | .mem d => (d, none, .mem [])
  | .failureToReadBody => ([], some .errNoBody, .failureToReadBody)
  | .probed c rest => (c :: rest.readToEnd.1, rest.readToEnd.2.1, rest.readToEnd.2.2)

/-- The number of bytes a reader still holds. -/
def Body.size : Body → Nat
  | .stream d _ _ => d.length
  | .mem d => d.length
  | .probed _ rest => 1 + rest.size
  | _ => 0

/-- Reading by calls of `Read(p)` with `len(p) = n` until a call returns an
error: the loop of `io.ReadAll` and `io.Copy`. -/
def Body.readLoop (n : Nat) : Nat → Body → List Byte → List Byte × Option GoError × Body
  | 0, b, acc => (acc, none, b)
  | fuel + 1, b, acc =>
    match b.Read n with
    | (d, none, b1) => Body.readLoop n fuel b1 (acc ++ d)
    | (d, some e, b1) => (acc ++ d, if e = GoError.EOF then none else some e, b1)

/-- The method `Close`.  `failureToReadBody.Close` is main.go:23; the
`io.NopCloser` wrappers and `http.NoBody` close without error. -/
def Body.Close : Body → Option GoError
  | .stream _ _ ce => ce
  | .probed _ rest => rest.Close
  | _ => none

/-- The bytes a consumer obtains by reading the body from its present state to
the end. -/
def Body.bytes (b : Body) : List Byte := b.readToEnd.1

/-- The function `drainBody` (main.go:30-43): the two readers `r1`, `r2` and `err`. -/
def drainBody (b : Body) : Body × Body × Option GoError :=
  if b = .nil ∨ b = .noBody then
    (.noBody, .noBody, none)
  else
    let (buf, rerr, b1) := b.readToEnd
    match rerr with
    | some err => (.nil, b1, some err)
    | none =>
      match b1.Close with
      | some err => (.nil, b1, some err)
      | none => (.mem buf, .mem buf, none)

/-! ## `net/http`: the response and its wire form -/

/-- The type `http.Header`: canonical keys with their values. -/
abbrev Header := List (String × List String)

/-- The method `Header.Get` for a key given in canonical form: the first value
stored under the key, or the empty string. -/
def Header.Get (h : Header) (key : String) : String :=
  match h.lookup key with
  | some (v :: _) => v
  | _ => ""

/-- The fields of `http.Response` that `Response.Write` reads.  `RequestMethod`
is `resp.Request.Method`, the empty string when `resp.Request` is nil. -/
structure Response where
  Status : String
  StatusCode : Int
  ProtoMajor : Nat
  ProtoMinor : Nat
  Header : GoProxy.Header
  Body : GoProxy.Body
  ContentLength : Int
  TransferEncoding : List String
  Close : Bool
  Uncompressed : Bool
  Trailer : GoProxy.Header
  RequestMethod : String
  deriving DecidableEq, Repr

/-- The method `Response.ProtoAtLeast`. -/
def Response.ProtoAtLeast (r : Response) (major minor : Nat) : Bool :=
  r.ProtoMajor > major || (r.ProtoMajor == major && r.ProtoMinor >= minor)

/-- The function `chunked` of net/http/transfer.go. -/
def chunked (te : List String) : Bool :=
  match te with
  | t :: _ => t == "chunked"
  | [] => false

/-- The struct `transferWriter` of net/http/transfer.go, for a response. -/
structure transferWriter where
  Method : String
  Body : GoProxy.Body
  BodyCloser : GoProxy.Body
  ResponseToHEAD : Bool
  ContentLength : Int
  Close : Bool
  TransferEncoding : List String
  Header : GoProxy.Header
  Trailer : GoProxy.Header
  deriving DecidableEq, Repr

/-- The function `newTransferWriter` of net/http/transfer.go, in its
`*Response` case. -/
def newTransferWriter (rr : Response) : transferWriter :=
  let atLeastHTTP11 := rr.ProtoAtLeast 1 1
  let responseToHEAD := rr.RequestMethod == "HEAD"
  let body := if responseToHEAD then Body.nil else rr.Body
  let te :=
    if responseToHEAD then rr.TransferEncoding
    else if !atLeastHTTP11 || body == Body.nil then [] else rr.TransferEncoding
  let cl : Int :=
    if responseToHEAD then (if chunked te then -1 else rr.ContentLength)
    else if chunked te then -1
    else if body == Body.nil then 0 else rr.ContentLength
  { Method := rr.RequestMethod
    Body := body
    BodyCloser := rr.Body
    ResponseToHEAD := responseToHEAD
    ContentLength := cl
    Close := rr.Close
    TransferEncoding := te
    Header := rr.Header
    Trailer := if chunked te then rr.Trailer else [] }

/-- The function `validHeaderFieldByte` of net/textproto: the bytes of an HTTP
token. -/
def validHeaderFieldByte (c : Char) : Bool :=
  c.isAlphanum || "!#$%&'*+-.^_`|~".toList.contains c

/-- The loop of `canonicalMIMEHeaderKey`: upper case for the first letter and
for a letter after a dash, lower case for the others. -/
def canonicalCase : Bool → List Char → List Char
  | _, [] => []
  | upper, c :: cs =>
    let c1 := if upper then c.toUpper else c.toLower
    c1 :: canonicalCase (c1 == '-') cs

/-- The function `http.CanonicalHeaderKey`: a key that holds a byte outside the
token bytes is returned unchanged. -/
def CanonicalHeaderKey (s : String) : String :=
  if s.toList.all validHeaderFieldByte then String.mk (canonicalCase true s.toList) else s

/-- The check of `transferWriter.writeHeader` on the keys of the trailer: the
key it rejects.  The Go loop ranges over a map, so of several keys it could
reject it names any; here the first in stored order. -/
def invalidTrailerKey (trailer : Header) : Option String :=
  (trailer.map (fun kv => CanonicalHeaderKey kv.1)).find?
    (fun k => k == "Transfer-Encoding" || k == "Trailer" || k == "Content-Length")

/-- The library code whose result is taken as given: the two decompressors and
the text of the status line and of the header lines.
* `brotli input` is what `io.ReadAll` obtains from a `brotli.Reader` that is
  fed exactly the bytes `input`;
* `inflate input` is what a `flate` decompressor produces from the bytes
  `input`, with the input left unread when the DEFLATE stream ended properly
  and `none` when it is corrupt or cut short;
* `statusLine r` is the status line `Response.Write` prints first;
* `headerLines r1 tw` is everything `Response.Write` prints after the status
  line up to and including the empty line that ends the header, for the clone
  `r1` of the response and its transfer writer `tw`;
* `trailerLines tr` is what `Header.Write` prints for the trailer `tr`. -/
structure Lib where
  brotli : List Byte → List Byte
  inflate : List Byte → List Byte × Option (List Byte)
  statusLine : Response → List Byte
  headerLines : Response → transferWriter → List Byte
  trailerLines : Header → List Byte

/-- What a dump consists of: `head` is the status line and the header up to the
empty line, `body` is the body section after it.  The Go value is the
concatenation `bytes`. -/
structure Dump where
  head : List Byte
  body : List Byte
  deriving DecidableEq, Repr

/-- The byte slice of a dump. -/
def Dump.bytes (d : Dump) : List Byte := d.head ++ d.body

/-- What `internal.NewChunkedWriter` prints for one `Write` of `data`. -/
def chunkedWrite (data : List Byte) : List Byte :=
  if data = [] then []
  else (Nat.toDigits 16 data.length).map Char.toNat ++ ascii "\r\n" ++ data ++ ascii "\r\n"

/-- The pieces in which `io.Copy` hands the bytes of a reader to the writer: an
in-memory reader writes itself in one piece (`WriteTo`), any other reader is
read through the copy buffer of 32 KiB. -/
def copyPieces : Body → List (List Byte)
  | .stream d _ _ => d.toChunks (32 * 1024)
  | .mem d => [d]
  | .probed c rest => [c] :: rest.bytes.toChunks (32 * 1024)
  | _ => []

/-- The method `transferWriter.writeBody`: the bytes written and the error. -/
def transferWriter.writeBody (lib : Lib) (t : transferWriter) : List Byte × Option GoError :=
  let isChunked := chunked t.TransferEncoding
  -- the copy of the body: bytes written, bytes copied (ncopy), error
  let copy : List Byte × Nat × Option GoError :=
    if t.Body = Body.nil then ([], 0, none)
    else if isChunked then
      let (_, err, _) := t.Body.readToEnd
      let w := ((copyPieces t.Body).map chunkedWrite).flatten
      match err with
      | some e => (w, 0, some e)
      | none => (w ++ ascii "0\r\n", 0, none)
    else if t.ContentLength = -1 then
      let (d, err, _) := t.Body.readToEnd
      (d, d.length, err)
    else
      -- io.LimitReader(body, t.ContentLength), then the rest to io.Discard
      let (d, err, _) := t.Body.readToEnd
      (d.take t.ContentLength.toNat, d.length, err)
  match copy with
  | (w, _, some e) => (w, some e)
  | (w, ncopy, none) =>
    match (if t.BodyCloser = Body.nil then none else t.BodyCloser.Close) with
    | some e => (w, some e)
    | none =>
      if !t.ResponseToHEAD && t.ContentLength != -1 && t.ContentLength != (ncopy : Int) then
        (w, some (.contentLength t.ContentLength ncopy))
      else if !t.ResponseToHEAD && isChunked then
        (w ++ lib.trailerLines t.Trailer ++ ascii "\r\n", none)
      else (w, none)

/-- The method `Response.Write` of net/http/response.go, writing into a
`bytes.Buffer`: what was written and the error.  When the error comes before
the body, `head` is the status line alone: the caller drops the buffer. -/
def Response.Write (lib : Lib) (r : Response) : Dump × Option GoError :=
  let line := lib.statusLine r
  -- r1 := the clone; a declared length of zero is probed with a read of one byte
  let probed : Except GoError Response :=
    if r.ContentLength = 0 ∧ r.Body ≠ Body.nil then
      match r.Body.Read 1 with
      | (d, err, b1) =>
        if err ≠ none ∧ err ≠ some .EOF then .error (err.getD .EOF)
        else
          match d with
          | [] => .ok { r with Body := Body.noBody }
          | c :: _ => .ok { r with ContentLength := -1, Body := Body.probed c b1 }
    else .ok r
  match probed with
  | .error e => ({ head := line, body := [] }, some e)
  | .ok r1 =>
    let r1 :=
      if r1.ContentLength = -1 && !r1.Close && r1.ProtoAtLeast 1 1
          && !chunked r1.TransferEncoding && !r1.Uncompressed then
        { r1 with Close := true }
      else r1
    let tw := newTransferWriter r1
    -- tw.writeHeader: its one error here is a trailer key it rejects
    match invalidTrailerKey tw.Trailer with
    | some k => ({ head := line, body := [] }, some (.invalidTrailerKey k))
    | none =>
      let (w, err) := tw.writeBody lib
      ({ head := line ++ lib.headerLines r1 tw, body := w }, err)

/-! ## `bufio` and `compress/gzip`: the reader that `gzip.NewReader` builds -/

/-- The struct `bufio.Reader`: `buf` is the buffered, unread part
`b.buf[b.r:b.w]`, `rd` the underlying reader, `err` the stored read error. -/
structure bufio.Reader where
  buf : List Byte
  rd : Body
  err : Option GoError
  deriving DecidableEq, Repr

/-- The default buffer size of `bufio.NewReader`. -/
def bufio.defaultBufSize : Nat := 4096

/-- The function `bufio.NewReader`. -/
def bufio.NewReader (rd : Body) : bufio.Reader := { buf := [], rd := rd, err := none }

/-- The method `bufio.Reader.Read` for a destination of `n` bytes: with an
empty buffer it reads the underlying reader once, into the destination when
that is at least as large as the buffer and into the buffer otherwise. -/
def bufio.Reader.Read (b : bufio.Reader) (n : Nat) : List Byte × Option GoError × bufio.Reader :=
  if n = 0 then
    if b.buf ≠ [] then ([], none, b) else ([], b.err, { b with err := none })
  else if b.buf = [] then
    match b.err with
    | some e => ([], some e, { b with err := none })
    | none =>
      if n ≥ bufio.defaultBufSize then
        let (d, e, rd1) := b.rd.Read n
        (d, e, { b with rd := rd1 })
      else
        let (d, e, rd1) := b.rd.Read bufio.defaultBufSize
        if d = [] then ([], e, { buf := [], rd := rd1, err := none })
        else (d.take n, none, { buf := d.drop n, rd := rd1, err := e })
  else (b.buf.take n, none, { b with buf := b.buf.drop n })

/-- The method `bufio.Reader.ReadByte`: an empty buffer is filled with one read
of the underlying reader (a reader of this file never returns no byte and no
error, so `fill` does not loop). -/
def bufio.Reader.ReadByte (b : bufio.Reader) : Except GoError Byte × bufio.Reader :=
  match b.buf with
  | c :: rest => (.ok c, { b with buf := rest })
  | [] =>
    match b.err with
    | some e => (.error e, { b with err := none })
    | none =>
      match b.rd.Read bufio.defaultBufSize with
      | (c :: rest, e, rd1) => (.ok c, { buf := rest, rd := rd1, err := e })
      | ([], some e, rd1) => (.error e, { buf := [], rd := rd1, err := none })
      | ([], none, rd1) => (.error .ErrNoProgress, { buf := [], rd := rd1, err := none })

/-- The loop of `io.ReadAtLeast` on a `bufio.Reader`: `need` bytes are still
missing, `acc` holds the bytes read so far.  Every read without an error
delivers a byte, so `need + 1` rounds are enough. -/
def io.readAtLeast : Nat → bufio.Reader → Nat → List Byte →
    List Byte × Option GoError × bufio.Reader
  | 0, b, _, acc => (acc, some .ErrNoProgress, b)
  | fuel + 1, b, need, acc =>
    if need = 0 then (acc, none, b)
    else
      match b.Read need with
      | (d, none, b1) => io.readAtLeast fuel b1 (need - d.length) (acc ++ d)
      | (d, some e, b1) =>
        if need ≤ d.length then (acc ++ d, none, b1)
        else if acc ++ d ≠ [] ∧ e = .EOF then (acc ++ d, some .ErrUnexpectedEOF, b1)
        else (acc ++ d, some e, b1)

/-- The function `io.ReadFull` for a destination of `k` bytes. -/
def io.ReadFull (b : bufio.Reader) (k : Nat) : List Byte × Option GoError × bufio.Reader :=
  io.readAtLeast (k + 1) b k []

/-- One bit step of the reflected CRC-32 (IEEE polynomial). -/
def crc32.step (c : Nat) : Nat :=
  if c % 2 = 1 then (c / 2) ^^^ 0xEDB88320 else c / 2

/-- The CRC register after one more byte. -/
def crc32.byte (crc : Nat) (b : Byte) : Nat :=
  crc32.step (crc32.step (crc32.step (crc32.step
    (crc32.step (crc32.step (crc32.step (crc32.step (crc ^^^ b))))))))

/-- The function `crc32.Update` with the IEEE table. -/
def crc32.Update (crc : Nat) (p : List Byte) : Nat :=
  (p.foldl crc32.byte (crc ^^^ 0xFFFFFFFF)) ^^^ 0xFFFFFFFF

/-- The little-endian value of a byte sequence (`binary.LittleEndian`). -/
def le : List Byte → Nat
  | [] => 0
  | b :: rest => b + 256 * le rest

/-- The function `noEOF` of compress/gzip/gunzip.go. -/
def gzip.noEOF (err : GoError) : GoError :=
  if err = .EOF then .ErrUnexpectedEOF else err

/-- The method `gzip.Reader.readString`: bytes up to and including the NUL, at
most `len(z.buf) = 512` of them. -/
def gzip.readString : Nat → bufio.Reader → List Byte → Except GoError (List Byte) × bufio.Reader
  | 0, z, _ => (.error .gzipErrHeader, z)
  | fuel + 1, z, acc =>
    match z.ReadByte with
    | (.error e, z1) => (.error e, z1)
    | (.ok c, z1) =>
      if c = 0 then (.ok (acc ++ [c]), z1) else gzip.readString fuel z1 (acc ++ [c])

/-- The optional header fields FNAME and FCOMMENT of `gzip.Reader.readHeader`:
a string read when the bit `bit` of the flag byte is set. -/
def gzip.readOptionalString (flg bit : Nat) (z : bufio.Reader) (digest : Nat) :
    Except GoError Nat × bufio.Reader :=
  if flg &&& bit ≠ 0 then
    match gzip.readString 512 z [] with
    | (.error e, z1) => (.error (gzip.noEOF e), z1)
    | (.ok s, z1) => (.ok (crc32.Update digest s), z1)
  else (.ok digest, z)

/-- The optional field FEXTRA of `gzip.Reader.readHeader`: two bytes of
length, then that many bytes. -/
def gzip.readExtra (flg : Nat) (z : bufio.Reader) (digest : Nat) :
    Except GoError Nat × bufio.Reader :=
  if flg &&& 4 ≠ 0 then
    match io.ReadFull z 2 with
    | (_, some e, z1) => (.error (gzip.noEOF e), z1)
    | (len, none, z1) =>
      match io.ReadFull z1 (le len) with
      | (_, some e, z2) => (.error (gzip.noEOF e), z2)
      | (data, none, z2) => (.ok (crc32.Update (crc32.Update digest len) data), z2)
  else (.ok digest, z)

/-- The optional field FHCRC of `gzip.Reader.readHeader`: the low 16 bits of
the checksum of the header. -/
def gzip.readHdrCrc (flg : Nat) (z : bufio.Reader) (digest : Nat) :
    Option GoError × bufio.Reader :=
  if flg &&& 2 ≠ 0 then
    match io.ReadFull z 2 with
    | (_, some e, z1) => (some (gzip.noEOF e), z1)
    | (d, none, z1) =>
      if le d ≠ digest % 65536 then (some .gzipErrHeader, z1) else (none, z1)
  else (none, z)

/-- The method `gzip.Reader.readHeader`: the error, and the reader `z.r`
afterwards.  The ten fixed bytes are ID1, ID2, CM, FLG, MTIME, XFL and OS. -/
def gzip.readHeader (z : bufio.Reader) : Option GoError × bufio.Reader :=
  match io.ReadFull z 10 with
  | (_, some e, z1) => (some e, z1)
  | (hd, none, z1) =>
    if hd.getD 0 0 ≠ 0x1f ∨ hd.getD 1 0 ≠ 0x8b ∨ hd.getD 2 0 ≠ 8 then
      (some .gzipErrHeader, z1)
    else
      match gzip.readExtra (hd.getD 3 0) z1 (crc32.Update 0 hd) with
      | (.error e, z2) => (some e, z2)
      | (.ok digest, z2) =>
        match gzip.readOptionalString (hd.getD 3 0) 8 z2 digest with
        | (.error e, z3) => (some e, z3)
        | (.ok digest, z3) =>
          match gzip.readOptionalString (hd.getD 3 0) 16 z3 digest with
          | (.error e, z4) => (some e, z4)
          | (.ok digest, z4) => gzip.readHdrCrc (hd.getD 3 0) z4 digest

/-- The function `gzip.NewReader`: a body is no `flate.Reader` (it has no
`ReadByte`), so it is wrapped by `bufio.NewReader` and the header is read.
The result is the error or the reader `z.r`, and the body as the call left it. -/
def gzip.NewReader (r : Body) : Except GoError bufio.Reader × Body :=
  match gzip.readHeader (bufio.NewReader r) with
  | (some e, z) => (.error e, z.rd)
  | (none, z) => (.ok z, z.rd)

/-- The bytes that `gzip.Reader.Read` delivers until its first error, from a
reader whose header has been read: the member is inflated, its trailer
(CRC-32 and size) is checked, and with multistream the next header is read. -/
def gzip.readMembers (lib : Lib) : Nat → List Byte → List Byte
  | 0, _ => []
  | fuel + 1, input =>
    match lib.inflate input with
    | (out, none) => out
    | (out, some rest) =>
      if rest.length < 8 then out
      else if le (rest.take 4) ≠ crc32.Update 0 out
          ∨ le ((rest.drop 4).take 4) ≠ out.length % 2 ^ 32 then out
      else
        match gzip.readHeader (bufio.NewReader (.mem (rest.drop 8))) with
        | (some _, _) => out
        | (none, z1) => out ++ gzip.readMembers lib fuel (z1.buf ++ z1.rd.bytes)

/-- The call `io.ReadAll(gr)` of main.go:87 with its error dropped: the bytes
decompressed from the unread input of `z.r`. -/
def gzip.ReadAll (lib : Lib) (z : bufio.Reader) : List Byte :=
  gzip.readMembers lib ((z.buf ++ z.rd.bytes).length + 1) (z.buf ++ z.rd.bytes)

/-- The call `io.ReadAll(br)` of main.go:76 with its error dropped.
`brotli.Reader.Read` returns without decoding when the source delivers no
byte. -/
def brotli.ReadAll (lib : Lib) (src : Body) : List Byte :=
  if src.bytes = [] then [] else lib.brotli src.bytes

/-! ## `main.go` -/

/-- The lines the program logs. -/
inductive LogEntry where
  /-- The line "gzip failed %s" of main.go:83. -/
  | gzipFailed (err : GoError)
  /-- The line "Failed to dump response: %v" of main.go:131. -/
  | dumpFailed (err : GoError)
  /-- The line "Response: %s" of main.go:133. -/
  | response (dump : List Byte)
  deriving DecidableEq, Repr

/-- What a call of `privateDumpResponse` leaves: the response `*resp` after the
call, the lines logged, and the returned pair (the dump, or the error with a
nil slice). -/
structure DumpResult where
  resp : Response
  log : List LogEntry
  out : Except GoError Dump

/-- Lines 52-67 of `privateDumpResponse`: the value of `save`, the response
with the body that will be serialized, and `err` (set by `drainBody` only). -/
def privateDumpResponse.swapBody (resp : Response) (body : Bool) :
    Body × Response × Option GoError :=
  let save := resp.Body
  if !body then
    if resp.ContentLength = 0 then (save, { resp with Body := .mem [] }, none)
    else (save, { resp with Body := .failureToReadBody }, none)
  else if resp.Body = .nil then (save, { resp with Body := .mem [] }, none)
  else
    let (r1, r2, err) := drainBody resp.Body
    (r1, { resp with Body := r2 }, err)

/-- Lines 69-90 of `privateDumpResponse`: the body after the decoding step, and
the line logged.  The deferred `resp.Body.Close()` of main.go:73 and main.go:85
closes the reader that was decoded; its result is dropped and that reader is
not used again. -/
def privateDumpResponse.decodeBody (lib : Lib) (resp : Response) : Body × List LogEntry :=
  if resp.Header.Get "Content-Encoding" = "br" then
    let body := brotli.ReadAll lib resp.Body
    (.mem body, [])
  else if resp.Header.Get "Content-Encoding" = "gzip" then
    match gzip.NewReader resp.Body with
    | (.error err, rd) => (rd, [.gzipFailed err])
    | (.ok gr, _) =>
      let body := gzip.ReadAll lib gr
      (.mem body, [])
  else (resp.Body, [])

/-- Lines 92-101 of `privateDumpResponse`: the returned pair. -/
def privateDumpResponse.write (lib : Lib) (resp : Response) : Except GoError Dump :=
  let (b, err) := resp.Write lib
  let err := if err = some .errNoBody then none else err
  match err with
  | some err => .error err
  | none => .ok b

/-- The function `privateDumpResponse` (main.go:46-102). -/
def privateDumpResponse (lib : Lib) (resp : Response) (body : Bool) : DumpResult :=
  let savecl := resp.ContentLength
  match privateDumpResponse.swapBody resp body with
  | (_, resp, some err) => { resp := resp, log := [], out := .error err }
  | (save, resp, none) =>
    let decoded := privateDumpResponse.decodeBody lib resp
    let resp := { resp with Body := decoded.1 }
    { resp := { resp with Body := save, ContentLength := savecl }
      log := decoded.2
      out := privateDumpResponse.write lib resp }

/-- What a call of the hook leaves: the response passed on, the lines logged,
the error returned. -/
structure HookResult where
  resp : Response
  log : List LogEntry
  err : Option GoError

/-- The hook `proxy.ModifyResponse` (main.go:122-137). -/
def ModifyResponse (lib : Lib) (resp : Response) : HookResult :=
  let resCt := resp.Header.Get "Content-Type"
  if resCt = "text/event-stream" ∧ resp.StatusCode = 200 then
    { resp := resp, log := [], err := none }
  else
    let d := privateDumpResponse lib resp true
    match d.out with
    | .error err => { resp := d.resp, log := d.log ++ [.dumpFailed err], err := none }
    | .ok responseDump =>
      { resp := d.resp, log := d.log ++ [.response responseDump.bytes], err := none }

/-! ## A concrete library, to evaluate the program on concrete responses

The theorems below hold for every `Lib`.  Where a statement is evaluated at a
concrete response, the library is `refLib`: DEFLATE decoded as RFC 1951
defines it, the status line and the header printed as net/http prints them,
Brotli decoded for the streams made of stored meta-blocks. -/

/-- The bit at position `pos` of the input, bits counted from the least
significant bit of the first byte; `none` past the end. -/
def flate.bit (input : List Byte) (pos : Nat) : Option Nat :=
  match input.get? (pos / 8) with
  | some b => some ((b >>> (pos % 8)) % 2)
  | none => none

/-- The value of `n` bits starting at `pos`, least significant bit first. -/
def flate.bits (input : List Byte) : Nat → Nat → Option Nat
  | 0, _ => some 0
  | n + 1, pos =>
    match flate.bit input pos, flate.bits input n (pos + 1) with
    | some b, some v => some (b + 2 * v)
    | _, _ => none

/-- A canonical Huffman code: `counts[l]` is the number of codes of length `l`,
`symbols` the symbols ordered by code. -/
structure flate.Huffman where
  counts : List Nat
  symbols : List Nat
  deriving Repr

/-- The code built from the code lengths of the symbols 0, 1, 2, ... -/
def flate.huffman (lengths : List Nat) : flate.Huffman :=
  let lens := List.range 16
  { counts := lens.map (fun l => if l = 0 then 0 else lengths.count l)
    symbols := (lens.drop 1).flatMap (fun l =>
      (List.range lengths.length).filter (fun s => lengths.getD s 0 = l)) }

/-- Decoding one symbol bit by bit: `code` is the code read so far, `first` the
first code of the present length, `index` the position of its symbol.  The
result is the symbol and the position after it. -/
def flate.decodeLoop (input : List Byte) (h : flate.Huffman) :
    Nat → Nat → Nat → Nat → Nat → Nat → Option (Nat × Nat)
  | 0, _, _, _, _, _ => none
  | fuel + 1, len, pos, code, first, index =>
    match flate.bit input pos with
    | none => none
    | some b =>
      let code := code + b
      let count := h.counts.getD len 0
      if code < first + count then
        (h.symbols.get? (index + (code - first))).map (fun s => (s, pos + 1))
      else
        flate.decodeLoop input h fuel (len + 1) (pos + 1)
          (2 * code) (2 * (first + count)) (index + count)

/-- One symbol of the code `h` read at `pos`. -/
def flate.decode (input : List Byte) (h : flate.Huffman) (pos : Nat) : Option (Nat × Nat) :=
  flate.decodeLoop input h 15 1 pos 0 0 0

/-- Base lengths of the length symbols 257..285. -/
def flate.lbase : List Nat :=
  [3, 4, 5, 6, 7, 8, 9, 10, 11, 13, 15, 17, 19, 23, 27, 31, 35, 43, 51, 59, 67, 83, 99, 115,
   131, 163, 195, 227, 258]
/-- Extra bits of the length symbols. -/
def flate.lext : List Nat :=
  [0, 0, 0, 0, 0, 0, 0, 0, 1, 1, 1, 1, 2, 2, 2, 2, 3, 3, 3, 3, 4, 4, 4, 4, 5, 5, 5, 5, 0]
/-- Base distances of the distance symbols 0..29. -/
def flate.dbase : List Nat :=
  [1, 2, 3, 4, 5, 7, 9, 13, 17, 25, 33, 49, 65, 97, 129, 193, 257, 385, 513, 769, 1025, 1537,
   2049, 3073, 4097, 6145, 8193, 12289, 16385, 24577]
/-- Extra bits of the distance symbols. -/
def flate.dext : List Nat :=
  [0, 0, 0, 0, 1, 1, 2, 2, 3, 3, 4, 4, 5, 5, 6, 6, 7, 7, 8, 8, 9, 9, 10, 10, 11, 11, 12, 12,
   13, 13]

/-- Appending `n` bytes copied from `dist` bytes back, one at a time. -/
def flate.copyBack : Nat → Nat → List Byte → List Byte
  | 0, _, out => out
  | n + 1, dist, out => flate.copyBack n dist (out ++ [out.getD (out.length - dist) 0])

/-- The symbols of one compressed block: the output and the position after the
end-of-block symbol, or the output alone when the data is corrupt or ends. -/
def flate.codes (input : List Byte) (lencode distcode : flate.Huffman) :
    Nat → Nat → List Byte → List Byte × Option Nat
  | 0, _, out => (out, none)
  | fuel + 1, pos, out =>
    match flate.decode input lencode pos with
    | none => (out, none)
    | some (sym, pos) =>
      if sym < 256 then flate.codes input lencode distcode fuel pos (out ++ [sym])
      else if sym = 256 then (out, some pos)
      else if sym ≥ 286 then (out, none)
      else
        match flate.bits input (flate.lext.getD (sym - 257) 0) pos with
        | none => (out, none)
        | some e =>
          let len := flate.lbase.getD (sym - 257) 0 + e
          let pos := pos + flate.lext.getD (sym - 257) 0
          match flate.decode input distcode pos with
          | none => (out, none)
          | some (dsym, pos) =>
            if dsym ≥ 30 then (out, none)
            else
              match flate.bits input (flate.dext.getD dsym 0) pos with
              | none => (out, none)
              | some e =>
                let dist := flate.dbase.getD dsym 0 + e
                if dist > out.length then (out, none)
                else
                  flate.codes input lencode distcode fuel (pos + flate.dext.getD dsym 0)
                    (flate.copyBack len dist out)

/-- The code lengths of the fixed literal/length code. -/
def flate.fixedLit : List Nat :=
  List.replicate 144 8 ++ List.replicate 112 9 ++ List.replicate 24 7 ++ List.replicate 8 8
/-- The code lengths of the fixed distance code. -/
def flate.fixedDist : List Nat := List.replicate 30 5

/-- The order of the code length code lengths. -/
def flate.order : List Nat := [16, 17, 18, 0, 8, 7, 9, 6, 10, 5, 11, 4, 12, 3, 13, 2, 14, 1, 15]

/-- The code length code lengths of a dynamic block, `n` of them, read at `pos`. -/
def flate.readOrder (input : List Byte) : Nat → Nat → Nat → List Nat → Option (List Nat)
  | 0, _, _, acc => some acc
  | n + 1, i, pos, acc =>
    match flate.bits input 3 pos with
    | none => none
    | some v => flate.readOrder input n (i + 1) (pos + 3) (acc.set (flate.order.getD i 0) v)

/-- The literal/length and distance code lengths of a dynamic block. -/
def flate.readLengths (input : List Byte) (h : flate.Huffman) (total : Nat) :
    Nat → Nat → List Nat → Option (List Nat × Nat)
  | 0, _, _ => none
  | fuel + 1, pos, acc =>
    if acc.length ≥ total then (if acc.length = total then some (acc, pos) else none)
    else
      match flate.decode input h pos with
      | none => none
      | some (sym, pos) =>
        if sym < 16 then flate.readLengths input h total fuel pos (acc ++ [sym])
        else if sym = 16 then
          match acc.getLast?, flate.bits input 2 pos with
          | some prev, some r =>
            flate.readLengths input h total fuel (pos + 2) (acc ++ List.replicate (3 + r) prev)
          | _, _ => none
        else if sym = 17 then
          match flate.bits input 3 pos with
          | some r => flate.readLengths input h total fuel (pos + 3) (acc ++ List.replicate (3 + r) 0)
          | none => none
        else
          match flate.bits input 7 pos with
          | some r => flate.readLengths input h total fuel (pos + 7) (acc ++ List.replicate (11 + r) 0)
          | none => none

/-- The blocks of a DEFLATE stream (RFC 1951) from bit position `pos`. -/
def flate.blocks (input : List Byte) : Nat → Nat → List Byte → List Byte × Option Nat
  | 0, _, out => (out, none)
  | fuel + 1, pos, out =>
    match flate.bits input 3 pos with
    | none => (out, none)
    | some hdr =>
      let final := hdr % 2
      let btype := hdr / 2
      let block : List Byte × Option Nat :=
        if btype = 0 then
          let p := (pos + 3 + 7) / 8
          match flate.bits input 16 (8 * p), flate.bits input 16 (8 * p + 16) with
          | some len, some nlen =>
            if nlen ≠ 65535 - len then (out, none)
            else if input.length < p + 4 + len then (out ++ input.drop (p + 4), none)
            else (out ++ (input.drop (p + 4)).take len, some (8 * (p + 4 + len)))
          | _, _ => (out, none)
        else if btype = 1 then
          flate.codes input (flate.huffman flate.fixedLit) (flate.huffman flate.fixedDist)
            (8 * input.length + 1) (pos + 3) out
        else if btype = 2 then
          match flate.bits input 5 (pos + 3), flate.bits input 5 (pos + 8),
              flate.bits input 4 (pos + 13) with
          | some hlit, some hdist, some hclen =>
            match flate.readOrder input (hclen + 4) 0 (pos + 17) (List.replicate 19 0) with
            | none => (out, none)
            | some cl =>
              match flate.readLengths input (flate.huffman cl) (hlit + 257 + hdist + 1)
                  (8 * input.length + 1) (pos + 17 + 3 * (hclen + 4)) [] with
              | none => (out, none)
              | some (lens, pos) =>
                flate.codes input (flate.huffman (lens.take (hlit + 257)))
                  (flate.huffman (lens.drop (hlit + 257))) (8 * input.length + 1) pos out
          | _, _, _ => (out, none)
        else (out, none)
      match block with
      | (out, none) => (out, none)
      | (out, some pos) =>
        if final = 1 then (out, some pos) else flate.blocks input fuel pos out

/-- A DEFLATE decompressor (RFC 1951): the output, and the input after the byte
that holds the last bit of the final block. -/
def flate.inflate (input : List Byte) : List Byte × Option (List Byte) :=
  match flate.blocks input (input.length + 1) 0 [] with
  | (out, none) => (out, none)
  | (out, some pos) => (out, some (input.drop ((pos + 7) / 8)))

/-- The order of `sort.Strings`. -/
def refLib.before : List Char → List Char → Bool
  | [], _ => true
  | _ :: _, [] => false
  | a :: as, b :: bs => a.toNat < b.toNat || (a == b && refLib.before as bs)

/-- A list of strings in the order of `sort.Strings`. -/
def refLib.sortOn {α : Type} (key : α → String) : List α → List α
  | [] => []
  | x :: xs =>
    let rest := refLib.sortOn key xs
    rest.takeWhile (fun y => !refLib.before (key x).toList (key y).toList)
      ++ x :: rest.dropWhile (fun y => !refLib.before (key x).toList (key y).toList)

/-- A header value as `Header.writeSubset` prints it: CR and LF replaced by a
space (`headerNewlineToSpace`), then `textproto.TrimString`. -/
def refLib.value (v : String) : String :=
  let space := fun (c : Char) => c == ' ' || c == '\t' || c == '\n' || c == '\r'
  let cs := v.toList.map (fun c => if c == '\n' || c == '\r' then ' ' else c)
  String.mk ((cs.dropWhile space).reverse.dropWhile space).reverse

/-- The method `Header.WriteSubset`: the lines `Key: value` of the keys not in
`exclude`, sorted by key, a key that is no token skipped
(`httpguts.ValidHeaderFieldName`). -/
def refLib.writeSubset (h : Header) (exclude : List String) : List Byte :=
  (refLib.sortOn Prod.fst (h.filter (fun kv => !exclude.contains kv.1))).flatMap (fun kv =>
    if kv.1 ≠ "" ∧ kv.1.toList.all validHeaderFieldByte then
      kv.2.flatMap (fun v => ascii (kv.1 ++ ": " ++ refLib.value v ++ "\r\n"))
    else [])

/-- The function `http.StatusText`. -/
def refLib.StatusText (code : Int) : String :=
  ([(100, "Continue"), (101, "Switching Protocols"), (102, "Processing"),
    (103, "Early Hints"), (200, "OK"), (201, "Created"), (202, "Accepted"),
    (203, "Non-Authoritative Information"), (204, "No Content"), (205, "Reset Content"),
    (206, "Partial Content"), (207, "Multi-Status"), (208, "Already Reported"),
    (226, "IM Used"), (300, "Multiple Choices"), (301, "Moved Permanently"),
    (302, "Found"), (303, "See Other"), (304, "Not Modified"), (305, "Use Proxy"),
    (307, "Temporary Redirect"), (308, "Permanent Redirect"), (400, "Bad Request"),
    (401, "Unauthorized"), (402, "Payment Required"), (403, "Forbidden"),
    (404, "Not Found"), (405, "Method Not Allowed"), (406, "Not Acceptable"),
    (407, "Proxy Authentication Required"), (408, "Request Timeout"), (409, "Conflict"),
    (410, "Gone"), (411, "Length Required"), (412, "Precondition Failed"),
    (413, "Request Entity Too Large"), (414, "Request URI Too Long"),
    (415, "Unsupported Media Type"), (416, "Requested Range Not Satisfiable"),
    (417, "Expectation Failed"), (418, "I'm a teapot"), (421, "Misdirected Request"),
    (422, "Unprocessable Entity"), (423, "Locked"), (424, "Failed Dependency"),
    (425, "Too Early"), (426, "Upgrade Required"), (428, "Precondition Required"),
    (429, "Too Many Requests"), (431, "Request Header Fields Too Large"),
    (451, "Unavailable For Legal Reasons"), (500, "Internal Server Error"),
    (501, "Not Implemented"), (502, "Bad Gateway"), (503, "Service Unavailable"),
    (504, "Gateway Timeout"), (505, "HTTP Version Not Supported"),
    (506, "Variant Also Negotiates"), (507, "Insufficient Storage"),
    (508, "Loop Detected"), (510, "Not Extended"),
    (511, "Network Authentication Required")] : List (Int × String)).lookup code |>.getD ""

/-- The verb `%03d` of `fmt`. -/
def refLib.pad3 (n : Int) : String :=
  let digits := toString n.natAbs
  let width := if n < 0 then 2 else 3
  (if n < 0 then "-" else "") ++ String.mk (List.replicate (width - digits.length) '0') ++ digits

/-- The status line as `Response.Write` prints it. -/
def refLib.statusLine (r : Response) : List Byte :=
  let code := toString r.StatusCode
  let text :=
    if r.Status = "" then
      (if refLib.StatusText r.StatusCode = "" then "status code " ++ code
       else refLib.StatusText r.StatusCode)
    else if (code ++ " ").toList.isPrefixOf r.Status.toList then
      String.mk (r.Status.toList.drop (code.length + 1))
    else r.Status
  ascii ("HTTP/" ++ toString r.ProtoMajor ++ "." ++ toString r.ProtoMinor ++ " "
    ++ refLib.pad3 r.StatusCode ++ " " ++ text ++ "\r\n")

/-- The function `hasToken` of net/http/header.go, for a token in lower case. -/
def refLib.hasToken (v token : List Char) : Bool :=
  let boundary := fun (c : Char) => c == ' ' || c == ',' || c == '\t'
  token ≠ [] && (List.range (v.length + 1 - token.length)).any (fun sp =>
    ((v.drop sp).take token.length).map Char.toLower == token
    && (sp == 0 || (v.drop (sp - 1)).head?.all boundary)
    && (v.drop (sp + token.length)).head?.all boundary)

/-- The method `transferWriter.shouldSendContentLength`. -/
def transferWriter.shouldSendContentLength (t : transferWriter) : Bool :=
  if chunked t.TransferEncoding then false
  else if t.ContentLength > 0 then true
  else if t.ContentLength < 0 then false
  else if t.Method == "POST" || t.Method == "PUT" || t.Method == "PATCH" then true
  else if t.TransferEncoding == ["identity"] then !(t.Method == "GET" || t.Method == "HEAD")
  else false

/-- The function `bodyAllowedForStatus` of net/http. -/
def bodyAllowedForStatus (status : Int) : Bool :=
  !((100 ≤ status && status ≤ 199) || status == 204 || status == 304)

/-- The header block as `Response.Write` prints it: the lines of
`transferWriter.writeHeader` (connection, length or transfer encoding, the keys
of the trailer), the header of the response without the keys of
`respExcludeHeader`, the line for a length of zero, the empty line. -/
def refLib.headerLines (r1 : Response) (tw : transferWriter) : List Byte :=
  (if tw.Close && !refLib.hasToken (r1.Header.Get "Connection").toList "close".toList then
      ascii "Connection: close\r\n" else [])
  ++ (if tw.shouldSendContentLength then
        ascii ("Content-Length: " ++ toString tw.ContentLength ++ "\r\n")
      else if chunked tw.TransferEncoding then ascii "Transfer-Encoding: chunked\r\n"
      else [])
  ++ (if tw.Trailer = [] then []
      else ascii ("Trailer: " ++ ",".intercalate
        (refLib.sortOn id (tw.Trailer.map (fun kv => CanonicalHeaderKey kv.1))) ++ "\r\n"))
  ++ refLib.writeSubset r1.Header ["Content-Length", "Transfer-Encoding", "Trailer"]
  ++ (if r1.ContentLength == 0 && !chunked tw.TransferEncoding
          && !tw.shouldSendContentLength && bodyAllowedForStatus r1.StatusCode then
        ascii "Content-Length: 0\r\n" else [])
  ++ ascii "\r\n"

/-- The meta-blocks of a Brotli stream (RFC 7932, section 9.2) from bit `pos`
on, for the stored, the empty and the metadata meta-block. -/
def refLib.metaBlocks (input : List Byte) : Nat → Nat → List Byte → List Byte
  | 0, _, out => out
  | fuel + 1, pos, out =>
    match flate.bit input pos with
    | none => out
    | some islast =>
      match (if islast = 1 then flate.bit input (pos + 1) else some 0) with
      | none => out
      | some 1 => out
      | some _ =>
        let pos := pos + 1 + islast
        match flate.bits input 2 pos with
        | none => out
        | some 3 =>
          match flate.bits input 1 (pos + 2), flate.bits input 2 (pos + 3) with
          | some 0, some skipBytes =>
            match flate.bits input (8 * skipBytes) (pos + 5) with
            | some v =>
              let skipLen := if skipBytes = 0 then 0 else v + 1
              let start := (pos + 5 + 8 * skipBytes + 7) / 8
              if islast = 1 then out
              else refLib.metaBlocks input fuel (8 * (start + skipLen)) out
            | none => out
          | _, _ => out
        | some n =>
          match flate.bits input (4 * (n + 4)) (pos + 2) with
          | none => out
          | some v =>
            let pos := pos + 2 + 4 * (n + 4)
            if islast = 1 then out
            else
              match flate.bit input pos with
              | some 1 =>
                let start := (pos + 1 + 7) / 8
                let data := (input.drop start).take (v + 1)
                if data.length < v + 1 then out ++ data
                else refLib.metaBlocks input fuel (8 * (start + v + 1)) (out ++ data)
              | _ => out

/-- A Brotli decoder for the streams whose meta-blocks are stored
(uncompressed), empty or metadata, the form in which an encoder puts a short
payload: the window size, then the meta-blocks.  At a compressed meta-block it
ends with the output so far, as the decoder does at input it rejects. -/
def refLib.brotli (input : List Byte) : List Byte :=
  match flate.bit input 0 with
  | none => []
  | some 0 => refLib.metaBlocks input (8 * input.length) 1 []
  | some _ =>
    match flate.bits input 3 1 with
    | none => []
    | some 0 =>
      match flate.bits input 3 4 with
      | none => []
      | some _ => refLib.metaBlocks input (8 * input.length) 7 []
    | some _ => refLib.metaBlocks input (8 * input.length) 4 []

/-- The concrete library at which closed statements are evaluated. -/
def refLib : Lib where
  brotli := refLib.brotli
  inflate := flate.inflate
  statusLine := refLib.statusLine
  headerLines := refLib.headerLines
  trailerLines := fun tr => refLib.writeSubset tr []

/-! ## Responses at which the statements are evaluated -/

/-- A response with status 200 to a GET over HTTP/1.1, with no header and no
body. -/
def exampleResponse : Response where
  Status := "200 OK"
  StatusCode := 200
  ProtoMajor := 1
  ProtoMinor := 1
  Header := []
  Body := Body.noBody
  ContentLength := 0
  TransferEncoding := []
  Close := false
  Uncompressed := false
  Trailer := []
  RequestMethod := "GET"

/-- An event stream answered with status 201 Created. -/
def eventStream201 : Response :=
  { exampleResponse with
    Status := "201 Created"
    StatusCode := 201
    Header := [("Content-Type", ["text/event-stream"])]
    Body := Body.stream (ascii "data: 1\n\n") none none
    ContentLength := -1 }

/-- The same event stream answered with status 200. -/
def eventStream200 : Response :=
  { eventStream201 with Status := "200 OK", StatusCode := 200 }

/-- The 31 bytes that gzip produces for the JSON text of the scenario of the
specification (an object with the member "ok" set to true). -/
def gzipOk : List Byte :=
  [31, 139, 8, 0, 0, 0, 0, 0, 2, 3, 171, 86, 202, 207, 86, 178, 42, 41, 42, 77, 173, 5, 0,
   144, 95, 212, 167, 11, 0, 0, 0]

/-- The scenario of the specification: status 200, `Content-Encoding: gzip`,
the compressed body, and its length as `Content-Length`. -/
def gzipResponse : Response :=
  { exampleResponse with
    Header := [("Content-Encoding", ["gzip"]), ("Content-Type", ["application/json"])]
    Body := Body.stream gzipOk none none
    ContentLength := 31 }

/-- A response labelled gzip whose 16 bytes are plain text. -/
def notGzipResponse : Response :=
  { exampleResponse with
    Header := [("Content-Encoding", ["gzip"])]
    Body := Body.stream (ascii "this is not gzip") none none
    ContentLength := 16 }

/-- A response labelled `br` with a declared length of 5 bytes. -/
def brResponse : Response :=
  { exampleResponse with
    Header := [("Content-Encoding", ["br"])]
    Body := Body.stream [27, 1, 0, 0, 36] none none
    ContentLength := 5 }

/-- A response with no content encoding and a body of the declared length. -/
def plainResponse : Response :=
  { exampleResponse with
    Header := [("Content-Type", ["text/plain"])]
    Body := Body.stream (ascii "hello") none none
    ContentLength := 5 }

/-- The plain response marked as chunked. -/
def chunkedResponse : Response :=
  { plainResponse with TransferEncoding := ["chunked"] }

/-- The plain response as the answer to a HEAD request. -/
def headResponse : Response :=
  { plainResponse with RequestMethod := "HEAD" }

/-- The answer to a HEAD request with no body and a declared length of zero,
marked chunked, with a trailer. -/
def headEmptyResponse : Response :=
  { exampleResponse with
    RequestMethod := "HEAD"
    TransferEncoding := ["chunked"]
    Trailer := [("X-Checksum", ["1"])] }

/-- The same answer with a trailer that names the length. -/
def headTrailerResponse : Response :=
  { headEmptyResponse with Trailer := [("content-length", ["0"])] }

/-- A response whose body delivers three bytes and then fails. -/
def brokenResponse : Response :=
  { exampleResponse with
    Body := Body.stream (ascii "abc") (some (GoError.other 1)) none
    ContentLength := 3 }

/-- A response whose body delivers three bytes and then fails to close. -/
def unclosableResponse : Response :=
  { exampleResponse with
    Body := Body.stream (ascii "abc") none (some (GoError.other 2))
    ContentLength := 3 }

/-- The reader is an in-memory reader with at most `n` unread bytes. -/
def Body.memBelow (b : Body) (n : Nat) : Prop :=
  ∃ s, b = Body.mem s ∧ s.length ≤ n

/-! ## Reading to the end -/

/-- Reading to the end is reading by calls of `Read`: the loop delivers the
bytes, the error and the final state of `readToEnd`, whatever the size of the
destination. -/
theorem Body.readLoop_eq_readToEnd (n : Nat) (hn : 0 < n) (fuel : Nat) (b : Body)
    (acc : List Byte) (hfuel : b.size < fuel) :
    Body.readLoop n fuel b acc
      = (acc ++ b.readToEnd.1, b.readToEnd.2.1, b.readToEnd.2.2) := by
  induction fuel generalizing b acc with
  | zero => exact absurd hfuel (Nat.not_lt_zero _)
  | succ fuel ih =>
    unfold Body.readLoop
    cases b with
    | nil => simp [Body.Read, Body.readToEnd]
    | noBody => simp [Body.Read, Body.readToEnd]
    | failureToReadBody => simp [Body.Read, Body.readToEnd]
    | probed c rest =>
      have hr : rest.size < fuel := by
        simp only [Body.size] at hfuel
        omega
      simp only [Body.Read]
      rw [ih rest (acc ++ [c]) hr]
      simp [Body.readToEnd]
    | mem d =>
      by_cases hd : d = []
      · subst hd
        simp [Body.Read, Body.readToEnd]
      · have hlen : 0 < d.length := List.length_pos.mpr hd
        have hr : (Body.mem (d.drop n)).size < fuel := by
          simp only [Body.size, List.length_drop] at hfuel ⊢
          omega
        simp only [Body.Read, hd, if_false]
        rw [ih (Body.mem (d.drop n)) (acc ++ d.take n) hr]
        simp [Body.readToEnd, List.append_assoc]
    | stream d re ce =>
      by_cases hd : d = []
      · subst hd
        cases re with
        | none => simp [Body.Read, Body.readToEnd]
        | some e => cases e <;> simp [Body.Read, Body.readToEnd]
      · have hlen : 0 < d.length := List.length_pos.mpr hd
        have hr : (Body.stream (d.drop n) re ce).size < fuel := by
          simp only [Body.size, List.length_drop] at hfuel ⊢
          omega
        simp only [Body.Read, hd, if_false]
        rw [ih (Body.stream (d.drop n) re ce) (acc ++ d.take n) hr]
        simp [Body.readToEnd, List.append_assoc]

/-! ## The steps of `privateDumpResponse` -/

/-- Lines 52-59: without the body, the response keeps its body in `save`. -/
theorem swapBody_false (resp : Response) :
    privateDumpResponse.swapBody resp false
      = (resp.Body,
         { resp with Body := if resp.ContentLength = 0 then Body.mem [] else Body.failureToReadBody },
         none) := by
  unfold privateDumpResponse.swapBody
  by_cases h : resp.ContentLength = 0 <;> simp [h]

/-- Lines 60-61: a nil body is replaced by an empty reader. -/
theorem swapBody_true_nil (resp : Response) (h : resp.Body = Body.nil) :
    privateDumpResponse.swapBody resp true
      = (Body.nil, { resp with Body := Body.mem [] }, none) := by
  unfold privateDumpResponse.swapBody
  simp [h]

/-- Lines 62-63: any other body goes through `drainBody`. -/
theorem swapBody_true (resp : Response) (h : resp.Body ≠ Body.nil) :
    privateDumpResponse.swapBody resp true
      = ((drainBody resp.Body).1, { resp with Body := (drainBody resp.Body).2.1 },
         (drainBody resp.Body).2.2) := by
  unfold privateDumpResponse.swapBody
  simp [h]

/-- Lines 64-66: an error of `drainBody` ends the call. -/
theorem privateDumpResponse_of_drain_error (lib : Lib) (resp : Response) (body : Bool)
    (save : Body) (r : Response) (e : GoError)
    (h : privateDumpResponse.swapBody resp body = (save, r, some e)) :
    privateDumpResponse lib resp body = { resp := r, log := [], out := Except.error e } := by
  unfold privateDumpResponse
  rw [h]

/-- Lines 69-101: decoding, serialization and restoration. -/
theorem privateDumpResponse_of_drained (lib : Lib) (resp : Response) (body : Bool)
    (save : Body) (r : Response)
    (h : privateDumpResponse.swapBody resp body = (save, r, none)) :
    privateDumpResponse lib resp body
      = { resp := { r with Body := save, ContentLength := resp.ContentLength }
          log := (privateDumpResponse.decodeBody lib r).2
          out := privateDumpResponse.write lib
            { r with Body := (privateDumpResponse.decodeBody lib r).1 } } := by
  unfold privateDumpResponse
  rw [h]

/-! ## The duplication of a body -/

/-- C3: `drainBody` applied to `http.NoBody`, or to a nil body, returns no error
and twice the marker `http.NoBody`, which is not a reader over an empty
buffer. -/
theorem drainBody_noBody_marker :
    drainBody Body.noBody = (Body.noBody, Body.noBody, none)
    ∧ drainBody Body.nil = (Body.noBody, Body.noBody, none)
    ∧ Body.noBody ≠ Body.mem [] := by
  refine ⟨rfl, rfl, ?_⟩
  intro h
  cases h

/-- What `drainBody` returns for a body that is read to its end and closed
without an error. -/
theorem drainBody_of_clean (b : Body) (hnil : b ≠ Body.nil) (hno : b ≠ Body.noBody)
    (hread : b.readToEnd.2.1 = none) (hclose : b.readToEnd.2.2.Close = none) :
    drainBody b = (Body.mem b.readToEnd.1, Body.mem b.readToEnd.1, none) := by
  unfold drainBody
  rw [if_neg (by simp [hnil, hno])]
  rcases hb : b.readToEnd with ⟨buf, rerr, b1⟩
  rw [hb] at hread hclose
  simp only at hread hclose
  subst hread
  simp only [hclose]

/-- C2: for a non-empty byte sequence `B`, `drainBody` applied to a stream that
yields `B`, reads to its end and closes without error returns no error and two
readers, each an in-memory reader of its own over the bytes `B`; such a reader,
read to its end, yields exactly `B` without error, whatever is read from the
other. -/
theorem drainBody_duplicates (b : Body) (B : List Byte) (hB : B ≠ [])
    (hyield : b.readToEnd.1 = B) (hread : b.readToEnd.2.1 = none)
    (hclose : b.readToEnd.2.2.Close = none) :
    drainBody b = (Body.mem B, Body.mem B, none)
    ∧ (Body.mem B).readToEnd = (B, none, Body.mem []) := by
  have hnil : b ≠ Body.nil := by
    rintro rfl
    exact hB hyield.symm
  have hno : b ≠ Body.noBody := by
    rintro rfl
    exact hB hyield.symm
  refine ⟨?_, rfl⟩
  rw [drainBody_of_clean b hnil hno hread hclose, hyield]

/-- C2 at a stream of the transport that yields the three bytes 1, 2, 3. -/
theorem drainBody_duplicates_witness :
    drainBody (Body.stream [1, 2, 3] none none) = (Body.mem [1, 2, 3], Body.mem [1, 2, 3], none)
    ∧ (Body.mem [1, 2, 3]).readToEnd = ([1, 2, 3], none, Body.mem []) :=
  drainBody_duplicates (Body.stream [1, 2, 3] none none) [1, 2, 3] (by decide) rfl rfl rfl

/-! ## Failure of the duplication -/

/-- What `drainBody` returns for a body whose reading or closing fails: a nil
first reader, the body as the attempt left it, and the error. -/
theorem drainBody_of_failure (b : Body) (e : GoError)
    (h : b.readToEnd.2.1 = some e
      ∨ (b.readToEnd.2.1 = none ∧ b.readToEnd.2.2.Close = some e)) :
    drainBody b = (Body.nil, b.readToEnd.2.2, some e) := by
  have hb : ¬ (b = Body.nil ∨ b = Body.noBody) := by
    rintro (rfl | rfl) <;> rcases h with h | ⟨-, h⟩ <;> cases h
  unfold drainBody
  rw [if_neg hb]
  rcases hr : b.readToEnd with ⟨buf, rerr, b1⟩
  rw [hr] at h
  simp only at h ⊢
  rcases h with h | ⟨h1, h2⟩
  · rw [h]
  · rw [h1]
    simp only [h2]

/-- C9: when the reading of the source stream fails before its end (with an
error other than `io.EOF`), or its closing fails after a complete read,
`drainBody` returns that error with a nil first reader, and
`privateDumpResponse(resp, true)` on a response with that body returns that
same error and no bytes, and logs nothing. -/
theorem drain_failure_abandons_dump (lib : Lib) (resp : Response) (e : GoError)
    (h : resp.Body.readToEnd.2.1 = some e
      ∨ (resp.Body.readToEnd.2.1 = none ∧ resp.Body.readToEnd.2.2.Close = some e)) :
    (drainBody resp.Body).1 = Body.nil
    ∧ (drainBody resp.Body).2.2 = some e
    ∧ (privateDumpResponse lib resp true).out = Except.error e
    ∧ (privateDumpResponse lib resp true).log = [] := by
  have hd := drainBody_of_failure resp.Body e h
  have hnil : resp.Body ≠ Body.nil := by
    intro hn
    rw [hn] at h
    rcases h with h | ⟨-, h⟩ <;> cases h
  have hs := swapBody_true resp hnil
  rw [hd] at hs
  rw [privateDumpResponse_of_drain_error lib resp true _ _ e hs, hd]
  exact ⟨rfl, rfl, rfl, rfl⟩

/-! ## The hook -/

/-- C8: for every response the hook `proxy.ModifyResponse` returns a nil error,
whether the response is exempted, the dump succeeds, or `privateDumpResponse`
fails; a failure of the dump is logged only. -/
theorem ModifyResponse_returns_nil (lib : Lib) (resp : Response) :
    (ModifyResponse lib resp).err = none
    ∧ ∀ e, (privateDumpResponse lib resp true).out = Except.error e →
        ¬ (resp.Header.Get "Content-Type" = "text/event-stream" ∧ resp.StatusCode = 200) →
        (ModifyResponse lib resp).log
          = (privateDumpResponse lib resp true).log ++ [LogEntry.dumpFailed e] := by
  constructor
  · by_cases hex : resp.Header.Get "Content-Type" = "text/event-stream" ∧ resp.StatusCode = 200
    · simp only [ModifyResponse, hex, and_self, if_true]
    · simp only [ModifyResponse, hex, if_false]
      cases (privateDumpResponse lib resp true).out <;> rfl
  · intro e he hex
    unfold ModifyResponse
    rw [if_neg hex]
    simp only [he]

/-- C7, as stated, fails: a response with content type `text/event-stream` and
the success status 201 is inspected.  Its body is read to the end and replaced
by an in-memory copy, and the dump is logged. -/
theorem ModifyResponse_inspects_status_201 :
    eventStream201.Header.Get "Content-Type" = "text/event-stream"
    ∧ 200 ≤ eventStream201.StatusCode ∧ eventStream201.StatusCode < 300
    ∧ (ModifyResponse refLib eventStream201).resp.Body = Body.mem (ascii "data: 1\n\n")
    ∧ (ModifyResponse refLib eventStream201).resp ≠ eventStream201
    ∧ (ModifyResponse refLib eventStream201).log ≠ [] := by
  refine ⟨rfl, by decide, by decide, rfl, ?_, ?_⟩
  · intro h
    have hb := congrArg Response.Body h
    exact absurd hb (by decide)
  · intro h
    have hl := congrArg List.length h
    exact absurd hl (by decide)

/-- C7, amended: for a response whose content type is `text/event-stream`, the
hook exempts it exactly when the status is 200.  With status 200 it returns
without calling `privateDumpResponse`: the response is passed on as it came,
nothing is logged, the error is nil.  With any other status the response is
inspected: the hook calls `privateDumpResponse(resp, true)`, passes on the
response as that call leaves it, and logs what the call logged and then the
dump or its failure. -/
theorem ModifyResponse_exempts_event_stream (lib : Lib) (resp : Response)
    (hct : resp.Header.Get "Content-Type" = "text/event-stream") :
    (resp.StatusCode = 200 →
      (ModifyResponse lib resp).resp = resp
      ∧ (ModifyResponse lib resp).log = []
      ∧ (ModifyResponse lib resp).err = none)
    ∧ (resp.StatusCode ≠ 200 →
      (ModifyResponse lib resp).resp = (privateDumpResponse lib resp true).resp
      ∧ (ModifyResponse lib resp).log
          = (privateDumpResponse lib resp true).log
            ++ [match (privateDumpResponse lib resp true).out with
                | Except.error err => LogEntry.dumpFailed err
                | Except.ok responseDump => LogEntry.response responseDump.bytes]
      ∧ (ModifyResponse lib resp).err = none) := by
  constructor
  · intro hst
    unfold ModifyResponse
    rw [if_pos ⟨hct, hst⟩]
    exact ⟨rfl, rfl, rfl⟩
  · intro hst
    unfold ModifyResponse
    rw [if_neg (fun h => hst h.2)]
    rcases hout : (privateDumpResponse lib resp true).out with e | d
    · simp only [hout, and_self]
    · simp only [hout, and_self]

/-- The amended C7 at an event stream answered with status 200, which is
passed on untouched, and at one answered with status 201, which is dumped. -/
theorem ModifyResponse_exempts_event_stream_witness :
    ((ModifyResponse refLib eventStream200).resp = eventStream200
      ∧ (ModifyResponse refLib eventStream200).log = []
      ∧ (ModifyResponse refLib eventStream200).err = none)
    ∧ ((ModifyResponse refLib eventStream201).resp
          = (privateDumpResponse refLib eventStream201 true).resp
      ∧ (ModifyResponse refLib eventStream201).log
          = (privateDumpResponse refLib eventStream201 true).log
            ++ [match (privateDumpResponse refLib eventStream201 true).out with
                | Except.error err => LogEntry.dumpFailed err
                | Except.ok responseDump => LogEntry.response responseDump.bytes]
      ∧ (ModifyResponse refLib eventStream201).err = none) :=
  ⟨(ModifyResponse_exempts_event_stream refLib eventStream200 rfl).1 rfl,
   (ModifyResponse_exempts_event_stream refLib eventStream201 rfl).2 (by decide)⟩

/-! ## Restoration of the response -/

/-- Lines 52-67 change no field of the response but the body. -/
theorem swapBody_fields (resp : Response) (body : Bool) :
    (privateDumpResponse.swapBody resp body).2.1
      = { resp with Body := (privateDumpResponse.swapBody resp body).2.1.Body } := by
  cases body
  · rw [swapBody_false]
  · by_cases h : resp.Body = Body.nil
    · rw [swapBody_true_nil resp h]
    · rw [swapBody_true resp h]

/-- After `privateDumpResponse`, every field of the response but the body has
the value it had before the call. -/
theorem privateDumpResponse_fields (lib : Lib) (resp : Response) (body : Bool) :
    (privateDumpResponse lib resp body).resp
      = { resp with Body := (privateDumpResponse lib resp body).resp.Body } := by
  have h := swapBody_fields resp body
  rcases hs : privateDumpResponse.swapBody resp body with ⟨save, r, err⟩
  rw [hs] at h
  simp only at h
  cases err with
  | some e =>
    rw [privateDumpResponse_of_drain_error lib resp body save r e hs]
    exact h
  | none =>
    rw [privateDumpResponse_of_drained lib resp body save r hs]
    simp only
    rw [h]

/-- A body that `drainBody` duplicates without error yields its bytes through
the first copy, and the copy reads without error. -/
theorem drainBody_copy (b : Body) (h : (drainBody b).2.2 = none) :
    (drainBody b).1.bytes = b.bytes ∧ (drainBody b).1.readToEnd.2.1 = none := by
  unfold drainBody at h ⊢
  by_cases hb : b = Body.nil ∨ b = Body.noBody
  · rw [if_pos hb]
    rcases hb with rfl | rfl <;> exact ⟨rfl, rfl⟩
  · rw [if_neg hb] at h ⊢
    unfold Body.bytes
    rcases hr : b.readToEnd with ⟨buf, rerr, b1⟩
    rw [hr] at h
    cases rerr with
    | some e => exact absurd h (by simp)
    | none =>
      simp only at h ⊢
      cases hc : b1.Close with
      | some e =>
        rw [hc] at h
        exact absurd h (by simp)
      | none => exact ⟨rfl, rfl⟩

/-! ## Serialization of a body of the declared length -/

/-- The transfer writer of a response that carries a body and is not chunked
keeps the body and the declared length. -/
theorem newTransferWriter_plain (r : Response) (hnil : r.Body ≠ Body.nil)
    (hhead : r.RequestMethod ≠ "HEAD")
    (hte : ¬ (chunked r.TransferEncoding = true ∧ r.ProtoAtLeast 1 1 = true)) :
    (newTransferWriter r).Body = r.Body
    ∧ (newTransferWriter r).BodyCloser = r.Body
    ∧ (newTransferWriter r).ResponseToHEAD = false
    ∧ (newTransferWriter r).ContentLength = r.ContentLength
    ∧ chunked (newTransferWriter r).TransferEncoding = false := by
  have h1 : (r.RequestMethod == "HEAD") = false := by simpa using hhead
  have h2 : (r.Body == Body.nil) = false := by simpa using hnil
  unfold newTransferWriter
  simp only [h1, h2, Bool.false_eq_true, if_false, Bool.or_false]
  by_cases hp : r.ProtoAtLeast 1 1 = true
  · have hc : chunked r.TransferEncoding = false := by
      cases hch : chunked r.TransferEncoding with
      | false => rfl
      | true => exact absurd ⟨hch, hp⟩ hte
    simp [hp, hc]
  · simp [hp, chunked]

/-- The transfer writer keeps the trailer of a chunked response only. -/
theorem newTransferWriter_trailer (r : Response) :
    (newTransferWriter r).Trailer
      = if chunked (newTransferWriter r).TransferEncoding then r.Trailer else [] := rfl

/-- The method `writeHeader` accepts the trailer of a response that is not
chunked: it has none. -/
theorem invalidTrailerKey_plain (r : Response)
    (hch : chunked (newTransferWriter r).TransferEncoding = false) :
    invalidTrailerKey (newTransferWriter r).Trailer = none := by
  rw [newTransferWriter_trailer, hch]
  rfl

/-- The body section `writeBody` writes for an in-memory body when the length
is declared and the transfer is not chunked: the bytes up to the declared
length, and the error "ContentLength=... with Body length ..." unless the body
has exactly that length. -/
theorem writeBody_mem (lib : Lib) (t : transferWriter) (D : List Byte)
    (hbody : t.Body = Body.mem D) (hcloser : t.BodyCloser = Body.mem D)
    (hch : chunked t.TransferEncoding = false) (hcl : t.ContentLength ≠ -1)
    (hhead : t.ResponseToHEAD = false) :
    t.writeBody lib
      = (D.take t.ContentLength.toNat,
         if t.ContentLength = (D.length : Int) then none
         else some (GoError.contentLength t.ContentLength D.length)) := by
  unfold transferWriter.writeBody
  simp only [hbody, hcloser, hch, hhead, hcl, Body.readToEnd, Body.Close, reduceCtorEq,
    if_false, Bool.false_eq_true, Bool.not_false, Bool.true_and, bne_iff_ne, ne_eq,
    not_false_eq_true, decide_True, Bool.and_eq_true, decide_eq_true_eq]
  by_cases h : t.ContentLength = (D.length : Int)
  · simp [h]
  · simp [h]

/-- The body section `writeBody` writes for an in-memory body when no length is
declared and the transfer is not chunked: the whole body. -/
theorem writeBody_mem_unknown (lib : Lib) (t : transferWriter) (D : List Byte)
    (hbody : t.Body = Body.mem D) (hcloser : t.BodyCloser = Body.mem D)
    (hch : chunked t.TransferEncoding = false) (hcl : t.ContentLength = -1) :
    t.writeBody lib = (D, none) := by
  unfold transferWriter.writeBody
  simp [hbody, hcloser, hch, hcl, Body.readToEnd, Body.Close]

/-- With the body `failureToReadBody{}`, `writeBody` writes nothing and returns
`errNoBody`. -/
theorem writeBody_sentinel (lib : Lib) (t : transferWriter)
    (hbody : t.Body = Body.failureToReadBody) :
    t.writeBody lib = ([], some GoError.errNoBody) := by
  unfold transferWriter.writeBody
  by_cases hch : chunked t.TransferEncoding = true
  · simp [hbody, hch, Body.readToEnd, copyPieces]
  · by_cases hcl : t.ContentLength = -1
    · simp [hbody, hch, hcl, Body.readToEnd]
    · simp [hbody, hch, hcl, Body.readToEnd]

/-- The method `Response.Write` for a response with an in-memory body, a
declared length other than zero, no chunking and no HEAD request. -/
theorem Write_mem (lib : Lib) (r : Response) (D : List Byte)
    (hbody : r.Body = Body.mem D) (hcl0 : r.ContentLength ≠ 0) (hcl : r.ContentLength ≠ -1)
    (hhead : r.RequestMethod ≠ "HEAD")
    (hte : ¬ (chunked r.TransferEncoding = true ∧ r.ProtoAtLeast 1 1 = true)) :
    r.Write lib
      = ({ head := lib.statusLine r ++ lib.headerLines r (newTransferWriter r)
           body := D.take r.ContentLength.toNat },
         if r.ContentLength = (D.length : Int) then none
         else some (GoError.contentLength r.ContentLength D.length)) := by
  have hnil : r.Body ≠ Body.nil := by
    rw [hbody]
    exact fun h => Body.noConfusion h
  obtain ⟨h1, h2, h3, h4, h5⟩ := newTransferWriter_plain r hnil hhead hte
  have hw := writeBody_mem lib (newTransferWriter r) D (by rw [h1, hbody]) (by rw [h2, hbody])
    h5 (by rw [h4]; exact hcl) h3
  unfold Response.Write
  simp only [hcl0, false_and, if_false, hcl, decide_False, Bool.false_and, Bool.false_eq_true]
  rw [invalidTrailerKey_plain r h5]
  simp only [hw, h4]

/-- With the body `http.NoBody` and a declared length of zero, `writeBody`
writes nothing and returns no error. -/
theorem writeBody_noBody (lib : Lib) (t : transferWriter)
    (hbody : t.Body = Body.noBody) (hcloser : t.BodyCloser = Body.noBody)
    (hch : chunked t.TransferEncoding = false) (hcl : t.ContentLength = 0) :
    t.writeBody lib = ([], none) := by
  unfold transferWriter.writeBody
  simp [hbody, hcloser, hch, hcl, Body.readToEnd, Body.Close]

/-- The method `Response.Write` for a response whose declared length is zero
and whose body is empty: the probe of one byte finds no byte, and nothing is
written after the header. -/
theorem Write_empty (lib : Lib) (r : Response)
    (hbody : r.Body = Body.mem [] ∨ r.Body = Body.noBody) (hcl : r.ContentLength = 0)
    (hhead : r.RequestMethod ≠ "HEAD")
    (hte : ¬ (chunked r.TransferEncoding = true ∧ r.ProtoAtLeast 1 1 = true)) :
    r.Write lib
      = ({ head := lib.statusLine r
                    ++ lib.headerLines { r with Body := Body.noBody }
                        (newTransferWriter { r with Body := Body.noBody })
           body := [] }, none) := by
  have hnil : r.Body ≠ Body.nil := by
    rcases hbody with h | h <;> rw [h] <;> exact fun h => Body.noConfusion h
  have hread : r.Body.Read 1 = ([], some GoError.EOF, r.Body) := by
    rcases hbody with h | h <;> rw [h] <;> rfl
  obtain ⟨h1, h2, -, h4, h5⟩ := newTransferWriter_plain { r with Body := Body.noBody }
    (fun h => Body.noConfusion h) hhead hte
  have hw := writeBody_noBody lib (newTransferWriter { r with Body := Body.noBody }) h1 h2 h5
    (h4.trans hcl)
  unfold Response.Write
  have hc : (r.ContentLength = 0 ∧ r.Body ≠ Body.nil) := ⟨hcl, hnil⟩
  rw [if_pos hc, hread]
  have hne : ¬ (r.ContentLength = -1) := by
    rw [hcl]
    decide
  simp only [ne_eq, reduceCtorEq, not_false_eq_true, not_true_eq_false, and_false, if_false,
    if_true, hne, decide_False, Bool.false_and, Bool.false_eq_true]
  rw [invalidTrailerKey_plain _ h5]
  simp only [hw]

/-- The transfer writer of the answer to a HEAD request: no body is written,
the transfer encoding and with it the trailer are kept. -/
theorem newTransferWriter_head (r : Response) (hhead : r.RequestMethod = "HEAD") :
    (newTransferWriter r).Body = Body.nil
    ∧ (newTransferWriter r).BodyCloser = r.Body
    ∧ (newTransferWriter r).ResponseToHEAD = true
    ∧ (newTransferWriter r).Trailer = if chunked r.TransferEncoding then r.Trailer else [] := by
  unfold newTransferWriter
  simp [hhead]

/-- The method `writeHeader` accepts a trailer none of whose keys is, in
canonical form, `Transfer-Encoding`, `Trailer` or `Content-Length`. -/
theorem invalidTrailerKey_of_valid (trailer : Header)
    (h : ∀ kv ∈ trailer, CanonicalHeaderKey kv.1 ≠ "Transfer-Encoding"
      ∧ CanonicalHeaderKey kv.1 ≠ "Trailer" ∧ CanonicalHeaderKey kv.1 ≠ "Content-Length") :
    invalidTrailerKey trailer = none := by
  unfold invalidTrailerKey
  rw [List.find?_eq_none]
  intro k hk
  obtain ⟨kv, hkv, rfl⟩ := List.mem_map.mp hk
  obtain ⟨h1, h2, h3⟩ := h kv hkv
  simp [h1, h2, h3]

/-- For the answer to a HEAD request `writeBody` writes nothing: no body, no
check of the length, no trailer. -/
theorem writeBody_head (lib : Lib) (t : transferWriter)
    (hbody : t.Body = Body.nil)
    (hcloser : (∃ D, t.BodyCloser = Body.mem D) ∨ t.BodyCloser = Body.noBody)
    (hhead : t.ResponseToHEAD = true) :
    t.writeBody lib = ([], none) := by
  unfold transferWriter.writeBody
  rcases hcloser with ⟨D, h⟩ | h
  · simp [hbody, h, hhead, Body.Close]
  · simp [hbody, h, hhead, Body.Close]

/-- The method `Response.Write` for the answer to a HEAD request whose declared
length is zero and whose body is empty: nothing is written after the
header. -/
theorem Write_head_empty (lib : Lib) (r : Response)
    (hbody : r.Body = Body.mem [] ∨ r.Body = Body.noBody) (hcl : r.ContentLength = 0)
    (hhead : r.RequestMethod = "HEAD")
    (htr : chunked r.TransferEncoding = true →
      ∀ kv ∈ r.Trailer, CanonicalHeaderKey kv.1 ≠ "Transfer-Encoding"
        ∧ CanonicalHeaderKey kv.1 ≠ "Trailer" ∧ CanonicalHeaderKey kv.1 ≠ "Content-Length") :
    ∃ head, r.Write lib = ({ head := head, body := [] }, none) := by
  have hnil : r.Body ≠ Body.nil := by
    rcases hbody with h | h <;> rw [h] <;> exact fun h => Body.noConfusion h
  have hread : r.Body.Read 1 = ([], some GoError.EOF, r.Body) := by
    rcases hbody with h | h <;> rw [h] <;> rfl
  obtain ⟨h1, h2, h3, h4⟩ := newTransferWriter_head { r with Body := Body.noBody } hhead
  have hw := writeBody_head lib (newTransferWriter { r with Body := Body.noBody }) h1
    (Or.inr h2) h3
  have hk : invalidTrailerKey (newTransferWriter { r with Body := Body.noBody }).Trailer
      = none := by
    apply invalidTrailerKey_of_valid
    rw [h4]
    intro kv hkv
    by_cases hch : chunked r.TransferEncoding = true
    · rw [if_pos hch] at hkv
      exact htr hch kv hkv
    · rw [if_neg hch] at hkv
      cases hkv
  unfold Response.Write
  have hc : (r.ContentLength = 0 ∧ r.Body ≠ Body.nil) := ⟨hcl, hnil⟩
  rw [if_pos hc, hread]
  have hne : ¬ (r.ContentLength = -1) := by
    rw [hcl]
    decide
  simp only [ne_eq, reduceCtorEq, not_false_eq_true, not_true_eq_false, and_false, if_false,
    if_true, hne, decide_False, Bool.false_and, Bool.false_eq_true]
  rw [hk]
  simp only [hw]
  exact ⟨_, rfl⟩

/-! ## A body that is not decoded -/

/-- Lines 69-90 leave the body alone when the content encoding is neither `br`
nor `gzip`. -/
theorem decodeBody_identity (lib : Lib) (r : Response)
    (hbr : r.Header.Get "Content-Encoding" ≠ "br")
    (hgz : r.Header.Get "Content-Encoding" ≠ "gzip") :
    privateDumpResponse.decodeBody lib r = (r.Body, []) := by
  unfold privateDumpResponse.decodeBody
  rw [if_neg hbr, if_neg hgz]

/-- Lines 92-101 for a body in memory whose length is the declared length. -/
theorem write_declared (lib : Lib) (r : Response) (B : List Byte)
    (hbody : r.Body = Body.mem B ∨ (r.Body = Body.noBody ∧ B = []))
    (hcl : r.ContentLength = B.length)
    (hhead : r.RequestMethod ≠ "HEAD")
    (hte : ¬ (chunked r.TransferEncoding = true ∧ r.ProtoAtLeast 1 1 = true)) :
    ∃ head, privateDumpResponse.write lib r = Except.ok { head := head, body := B } := by
  unfold privateDumpResponse.write
  by_cases hB : B = []
  · subst hB
    have hb : r.Body = Body.mem [] ∨ r.Body = Body.noBody := by
      rcases hbody with h | ⟨h, -⟩
      · exact Or.inl h
      · exact Or.inr h
    rw [Write_empty lib r hb hcl hhead hte]
    exact ⟨_, rfl⟩
  · have hb : r.Body = Body.mem B := by
      rcases hbody with h | ⟨-, h⟩
      · exact h
      · exact absurd h hB
    have hlen : (B.length : Int) ≠ 0 := by
      intro h
      exact hB (List.length_eq_zero.mp (Int.ofNat_eq_zero.mp h))
    have h0 : r.ContentLength ≠ 0 := by rw [hcl]; exact hlen
    have h1 : r.ContentLength ≠ -1 := by rw [hcl]; omega
    rw [Write_mem lib r B hb h0 h1 hhead hte, if_pos hcl]
    refine ⟨lib.statusLine r ++ lib.headerLines r (newTransferWriter r), ?_⟩
    simp only [reduceCtorEq, if_false, hcl, Int.toNat_ofNat, List.take_length]

/-- Lines 53-67 for a body that is read to its end and closed without error:
the body that is serialized is an in-memory copy of its bytes, or the marker
`http.NoBody` when the response carried that marker. -/
theorem swapBody_of_clean (resp : Response) (B : List Byte)
    (hyield : resp.Body.readToEnd.1 = B) (hread : resp.Body.readToEnd.2.1 = none)
    (hclose : resp.Body.readToEnd.2.2.Close = none) :
    ∃ save b, privateDumpResponse.swapBody resp true
        = (save, { resp with Body := b }, none)
      ∧ (b = Body.mem B ∨ (b = Body.noBody ∧ B = [])) := by
  by_cases hnil : resp.Body = Body.nil
  · refine ⟨Body.nil, Body.mem [], swapBody_true_nil resp hnil, Or.inl ?_⟩
    rw [hnil] at hyield
    rw [← hyield]
    rfl
  · by_cases hno : resp.Body = Body.noBody
    · refine ⟨Body.noBody, Body.noBody, ?_, Or.inr ⟨rfl, ?_⟩⟩
      · rw [swapBody_true resp hnil, hno]
        rfl
      · rw [hno] at hyield
        exact hyield.symm
    · refine ⟨Body.mem B, Body.mem B, ?_, Or.inl rfl⟩
      rw [swapBody_true resp hnil, drainBody_of_clean resp.Body hnil hno hread hclose, hyield]

/-- Lines 92-101 for the answer to a HEAD request with an empty body and a
declared length of zero. -/
theorem write_head_empty (lib : Lib) (r : Response)
    (hbody : r.Body = Body.mem [] ∨ r.Body = Body.noBody) (hcl : r.ContentLength = 0)
    (hhead : r.RequestMethod = "HEAD")
    (htr : chunked r.TransferEncoding = true →
      ∀ kv ∈ r.Trailer, CanonicalHeaderKey kv.1 ≠ "Transfer-Encoding"
        ∧ CanonicalHeaderKey kv.1 ≠ "Trailer" ∧ CanonicalHeaderKey kv.1 ≠ "Content-Length") :
    ∃ head, privateDumpResponse.write lib r = Except.ok { head := head, body := [] } := by
  obtain ⟨head, hw⟩ := Write_head_empty lib r hbody hcl hhead htr
  refine ⟨head, ?_⟩
  unfold privateDumpResponse.write
  rw [hw]
  rfl

/-- C10, amended: for a response whose `Content-Encoding` is neither `br` nor
`gzip`, whose body yields the bytes `B` (read to the end and closed without
error) and whose declared length is the length of `B`,
`privateDumpResponse(resp, true)` returns without error a dump whose body
section is exactly `B`, and logs nothing, provided the response either does
not answer a HEAD request and is not written chunked (transfer encoding
`chunked` on HTTP/1.1 or later), or answers a HEAD request with `B` empty and,
when its transfer encoding is `chunked`, with a trailer that has none of the
keys `Transfer-Encoding`, `Trailer`, `Content-Length`. -/
theorem dump_identity_body (lib : Lib) (resp : Response) (B : List Byte)
    (hbr : resp.Header.Get "Content-Encoding" ≠ "br")
    (hgz : resp.Header.Get "Content-Encoding" ≠ "gzip")
    (hyield : resp.Body.readToEnd.1 = B) (hread : resp.Body.readToEnd.2.1 = none)
    (hclose : resp.Body.readToEnd.2.2.Close = none)
    (hcl : resp.ContentLength = B.length)
    (hform : (resp.RequestMethod ≠ "HEAD"
        ∧ ¬ (chunked resp.TransferEncoding = true ∧ resp.ProtoAtLeast 1 1 = true))
      ∨ (resp.RequestMethod = "HEAD" ∧ B = []
        ∧ (chunked resp.TransferEncoding = true →
            ∀ kv ∈ resp.Trailer, CanonicalHeaderKey kv.1 ≠ "Transfer-Encoding"
              ∧ CanonicalHeaderKey kv.1 ≠ "Trailer"
              ∧ CanonicalHeaderKey kv.1 ≠ "Content-Length"))) :
    (∃ head, (privateDumpResponse lib resp true).out = Except.ok { head := head, body := B })
    ∧ (privateDumpResponse lib resp true).log = [] := by
  obtain ⟨save, b, hs, hb⟩ := swapBody_of_clean resp B hyield hread hclose
  rw [privateDumpResponse_of_drained lib resp true save _ hs]
  rw [decodeBody_identity lib { resp with Body := b } hbr hgz]
  rcases hform with ⟨hhead, hte⟩ | ⟨hhead, hB, htr⟩
  · exact ⟨write_declared lib { resp with Body := b } B hb hcl hhead hte, rfl⟩
  · subst hB
    have hb2 : b = Body.mem [] ∨ b = Body.noBody := by
      rcases hb with h | ⟨h, -⟩
      · exact Or.inl h
      · exact Or.inr h
    exact ⟨write_head_empty lib { resp with Body := b } hb2 hcl hhead htr, rfl⟩

/-! ## Where the body section is not the body -/

/-- A trailer that `writeHeader` accepts has none of the three keys. -/
theorem invalidTrailerKey_valid (trailer : Header) (h : invalidTrailerKey trailer = none) :
    ∀ kv ∈ trailer, CanonicalHeaderKey kv.1 ≠ "Transfer-Encoding"
      ∧ CanonicalHeaderKey kv.1 ≠ "Trailer" ∧ CanonicalHeaderKey kv.1 ≠ "Content-Length" := by
  unfold invalidTrailerKey at h
  rw [List.find?_eq_none] at h
  intro kv hkv
  have hk := h (CanonicalHeaderKey kv.1) (List.mem_map_of_mem _ hkv)
  simpa [not_or, and_assoc] using hk

/-- The method `Response.Write` for the answer to a HEAD request whose body is
in memory and has the declared length: an error for a trailer key that is
rejected, else nothing after the header. -/
theorem Write_head (lib : Lib) (r : Response) (B : List Byte)
    (hbody : r.Body = Body.mem B ∨ (r.Body = Body.noBody ∧ B = []))
    (hcl : r.ContentLength = B.length) (hhead : r.RequestMethod = "HEAD") :
    ∃ head, r.Write lib
      = match invalidTrailerKey (if chunked r.TransferEncoding then r.Trailer else []) with
        | some k => ({ head := lib.statusLine r, body := [] }, some (GoError.invalidTrailerKey k))
        | none => ({ head := head, body := [] }, none) := by
  have hnil : r.Body ≠ Body.nil := by
    rcases hbody with h | ⟨h, -⟩ <;> rw [h] <;> exact fun h => Body.noConfusion h
  have hne : ¬ (r.ContentLength = -1) := by
    rw [hcl]
    omega
  by_cases hB : B = []
  · subst hB
    have hread : r.Body.Read 1 = ([], some GoError.EOF, r.Body) := by
      rcases hbody with h | ⟨h, -⟩ <;> rw [h] <;> rfl
    obtain ⟨h1, h2, h3, h4⟩ := newTransferWriter_head { r with Body := Body.noBody } hhead
    have hw := writeBody_head lib (newTransferWriter { r with Body := Body.noBody }) h1
      (Or.inr h2) h3
    unfold Response.Write
    have hc : (r.ContentLength = 0 ∧ r.Body ≠ Body.nil) := ⟨hcl, hnil⟩
    rw [if_pos hc, hread]
    simp only [ne_eq, reduceCtorEq, not_false_eq_true, not_true_eq_false, and_false, if_false,
      if_true, hne, decide_False, Bool.false_and, Bool.false_eq_true]
    rw [h4]
    simp only [hw]
    exact ⟨_, rfl⟩
  · have hb : r.Body = Body.mem B := by
      rcases hbody with h | ⟨-, h⟩
      · exact h
      · exact absurd h hB
    have hcl0 : r.ContentLength ≠ 0 := by
      rw [hcl]
      intro h
      exact hB (List.length_eq_zero.mp (Int.ofNat_eq_zero.mp h))
    obtain ⟨h1, h2, h3, h4⟩ := newTransferWriter_head r hhead
    have hw := writeBody_head lib (newTransferWriter r) h1 (Or.inl ⟨B, h2.trans hb⟩) h3
    unfold Response.Write
    simp only [hcl0, false_and, if_false, hne, decide_False, Bool.false_and, Bool.false_eq_true]
    rw [h4]
    simp only [hw]
    exact ⟨_, rfl⟩

/-- The transfer writer of a response that is written chunked: the body is
kept, the length is unknown, the trailer is kept. -/
theorem newTransferWriter_chunked (r : Response) (hnil : r.Body ≠ Body.nil)
    (hhead : r.RequestMethod ≠ "HEAD")
    (hch : chunked r.TransferEncoding = true) (hproto : r.ProtoAtLeast 1 1 = true) :
    (newTransferWriter r).Body = r.Body
    ∧ (newTransferWriter r).BodyCloser = r.Body
    ∧ (newTransferWriter r).ResponseToHEAD = false
    ∧ (newTransferWriter r).ContentLength = -1
    ∧ chunked (newTransferWriter r).TransferEncoding = true
    ∧ (newTransferWriter r).Trailer = r.Trailer := by
  have h1 : (r.RequestMethod == "HEAD") = false := by simpa using hhead
  have h2 : (r.Body == Body.nil) = false := by simpa using hnil
  unfold newTransferWriter
  simp [h1, h2, hch, hproto]

/-- The body section `writeBody` writes for an in-memory body when the
transfer is chunked: the body as one chunk, the last chunk, the trailer, the
empty line. -/
theorem writeBody_chunked (lib : Lib) (t : transferWriter) (B : List Byte)
    (hbody : (t.Body = Body.mem B ∧ t.BodyCloser = Body.mem B)
      ∨ (t.Body = Body.noBody ∧ t.BodyCloser = Body.noBody ∧ B = []))
    (hch : chunked t.TransferEncoding = true) (hcl : t.ContentLength = -1)
    (hhead : t.ResponseToHEAD = false) :
    t.writeBody lib
      = (chunkedWrite B ++ ascii "0\r\n" ++ lib.trailerLines t.Trailer ++ ascii "\r\n",
         none) := by
  unfold transferWriter.writeBody
  rcases hbody with ⟨h1, h2⟩ | ⟨h1, h2, rfl⟩
  · simp [h1, h2, hch, hcl, hhead, Body.readToEnd, Body.Close, copyPieces]
  · simp [h1, h2, hch, hcl, hhead, Body.readToEnd, Body.Close, copyPieces, chunkedWrite]

/-- The method `Response.Write` for a response written chunked whose body is
in memory and has the declared length: an error for a trailer key that is
rejected, else the chunk framing of the body. -/
theorem Write_chunked (lib : Lib) (r : Response) (B : List Byte)
    (hbody : r.Body = Body.mem B ∨ (r.Body = Body.noBody ∧ B = []))
    (hcl : r.ContentLength = B.length) (hhead : r.RequestMethod ≠ "HEAD")
    (hch : chunked r.TransferEncoding = true) (hproto : r.ProtoAtLeast 1 1 = true) :
    ∃ head, r.Write lib
      = match invalidTrailerKey r.Trailer with
        | some k => ({ head := lib.statusLine r, body := [] }, some (GoError.invalidTrailerKey k))
        | none =>
          ({ head := head
             body := chunkedWrite B ++ ascii "0\r\n" ++ lib.trailerLines r.Trailer
                      ++ ascii "\r\n" }, none) := by
  have hnil : r.Body ≠ Body.nil := by
    rcases hbody with h | ⟨h, -⟩ <;> rw [h] <;> exact fun h => Body.noConfusion h
  have hne : ¬ (r.ContentLength = -1) := by
    rw [hcl]
    omega
  by_cases hB : B = []
  · subst hB
    have hread : r.Body.Read 1 = ([], some GoError.EOF, r.Body) := by
      rcases hbody with h | ⟨h, -⟩ <;> rw [h] <;> rfl
    obtain ⟨h1, h2, h3, h4, h5, h6⟩ := newTransferWriter_chunked { r with Body := Body.noBody }
      (fun h => Body.noConfusion h) hhead hch hproto
    have hw := writeBody_chunked lib (newTransferWriter { r with Body := Body.noBody }) []
      (Or.inr ⟨h1, h2, rfl⟩) h5 h4 h3
    unfold Response.Write
    have hc : (r.ContentLength = 0 ∧ r.Body ≠ Body.nil) := ⟨hcl, hnil⟩
    rw [if_pos hc, hread]
    simp only [ne_eq, reduceCtorEq, not_false_eq_true, not_true_eq_false, and_false, if_false,
      if_true, hne, decide_False, Bool.false_and, Bool.false_eq_true]
    rw [h6]
    simp only [hw, h6]
    exact ⟨_, rfl⟩
  · have hb : r.Body = Body.mem B := by
      rcases hbody with h | ⟨-, h⟩
      · exact h
      · exact absurd h hB
    have hcl0 : r.ContentLength ≠ 0 := by
      rw [hcl]
      intro h
      exact hB (List.length_eq_zero.mp (Int.ofNat_eq_zero.mp h))
    obtain ⟨h1, h2, h3, h4, h5, h6⟩ := newTransferWriter_chunked r hnil hhead hch hproto
    have hw := writeBody_chunked lib (newTransferWriter r) B
      (Or.inl ⟨h1.trans hb, h2.trans hb⟩) h5 h4 h3
    unfold Response.Write
    simp only [hcl0, false_and, if_false, hne, decide_False, Bool.false_and, Bool.false_eq_true]
    rw [h6]
    simp only [hw, h6]
    exact ⟨_, rfl⟩

/-- The chunk framing of a body is longer than the body. -/
theorem chunked_body_longer (B tr : List Byte) :
    B.length < (chunkedWrite B ++ ascii "0\r\n" ++ tr ++ ascii "\r\n").length := by
  unfold chunkedWrite
  by_cases hB : B = []
  · subst hB
    simp [ascii]
  · have h2 : (ascii "\r\n").length = 2 := rfl
    simp only [hB, if_false, List.length_append, h2]
    omega

/-- The restriction of the amended C10 cannot be dropped: for a response with
no decoded content encoding whose body yields `B` and has the declared length,
`privateDumpResponse(resp, true)` returns a dump with the body section `B`
only in the two cases of the amended claim. -/
theorem dump_identity_body_only (lib : Lib) (resp : Response) (B : List Byte)
    (hbr : resp.Header.Get "Content-Encoding" ≠ "br")
    (hgz : resp.Header.Get "Content-Encoding" ≠ "gzip")
    (hyield : resp.Body.readToEnd.1 = B) (hread : resp.Body.readToEnd.2.1 = none)
    (hclose : resp.Body.readToEnd.2.2.Close = none)
    (hcl : resp.ContentLength = B.length)
    (hout : ∃ head, (privateDumpResponse lib resp true).out
      = Except.ok { head := head, body := B }) :
    (resp.RequestMethod ≠ "HEAD"
        ∧ ¬ (chunked resp.TransferEncoding = true ∧ resp.ProtoAtLeast 1 1 = true))
      ∨ (resp.RequestMethod = "HEAD" ∧ B = []
        ∧ (chunked resp.TransferEncoding = true →
            ∀ kv ∈ resp.Trailer, CanonicalHeaderKey kv.1 ≠ "Transfer-Encoding"
              ∧ CanonicalHeaderKey kv.1 ≠ "Trailer"
              ∧ CanonicalHeaderKey kv.1 ≠ "Content-Length")) := by
  obtain ⟨save, b, hs, hb⟩ := swapBody_of_clean resp B hyield hread hclose
  obtain ⟨head, hout⟩ := hout
  rw [privateDumpResponse_of_drained lib resp true save _ hs,
    decodeBody_identity lib { resp with Body := b } hbr hgz] at hout
  simp only [privateDumpResponse.write] at hout
  by_cases hhead : resp.RequestMethod = "HEAD"
  · right
    obtain ⟨hd, hw⟩ := Write_head lib { resp with Body := b } B hb hcl hhead
    rw [hw] at hout
    rcases hk : invalidTrailerKey (if chunked resp.TransferEncoding then resp.Trailer else [])
      with _ | k
    · simp only [hk] at hout
      simp only [reduceCtorEq, if_false, Except.ok.injEq, Dump.mk.injEq] at hout
      have hB : B = [] := hout.2.symm
      refine ⟨hhead, hB, fun hch => ?_⟩
      rw [if_pos hch] at hk
      exact invalidTrailerKey_valid resp.Trailer hk
    · simp only [hk] at hout
      simp at hout
  · left
    refine ⟨hhead, fun ⟨hch, hproto⟩ => ?_⟩
    obtain ⟨hd, hw⟩ := Write_chunked lib { resp with Body := b } B hb hcl hhead hch hproto
    rw [hw] at hout
    rcases hk : invalidTrailerKey resp.Trailer with _ | k
    · simp only [hk] at hout
      have hlt := chunked_body_longer B (lib.trailerLines resp.Trailer)
      simp only [reduceCtorEq, if_false, Except.ok.injEq, Dump.mk.injEq] at hout
      rw [hout.2] at hlt
      exact absurd hlt (lt_irrefl _)
    · simp only [hk] at hout
      simp at hout

/-! ## A decoded body and the declared length -/

/-- Lines 92-101 for a body in memory whose length is not the declared one: the
error of `writeBody` is returned. -/
theorem write_mismatch (lib : Lib) (r : Response) (D : List Byte)
    (hbody : r.Body = Body.mem D) (hcl0 : r.ContentLength ≠ 0) (hcl1 : r.ContentLength ≠ -1)
    (hne : r.ContentLength ≠ (D.length : Int))
    (hhead : r.RequestMethod ≠ "HEAD")
    (hte : ¬ (chunked r.TransferEncoding = true ∧ r.ProtoAtLeast 1 1 = true)) :
    privateDumpResponse.write lib r
      = Except.error (GoError.contentLength r.ContentLength D.length) := by
  unfold privateDumpResponse.write
  rw [Write_mem lib r D hbody hcl0 hcl1 hhead hte, if_neg hne]
  simp

/-- The function `gzip.NewReader` fails on an empty body with `io.EOF`. -/
theorem gzip_NewReader_empty :
    gzip.NewReader (Body.mem []) = (Except.error GoError.EOF, Body.mem []) := rfl

/-- C4 fails on the code: for a response with `Content-Encoding: gzip` whose
body `E` is a gzip stream that decodes to the payload `P`, and whose declared
length is the length of `E`, `privateDumpResponse(resp, true)` returns no dump
but the error "http: ContentLength=len(E) with Body length len(P)" whenever
the two lengths differ (response not chunked, not to a HEAD request). -/
theorem gzip_dump_fails_on_declared_length (lib : Lib) (resp : Response) (E P : List Byte)
    (gr : bufio.Reader) (rd : Body)
    (hce : resp.Header.Get "Content-Encoding" = "gzip")
    (hyield : resp.Body.readToEnd.1 = E) (hread : resp.Body.readToEnd.2.1 = none)
    (hclose : resp.Body.readToEnd.2.2.Close = none)
    (hnew : gzip.NewReader (Body.mem E) = (Except.ok gr, rd))
    (hP : gzip.ReadAll lib gr = P)
    (hcl : resp.ContentLength = E.length)
    (hne : P.length ≠ E.length)
    (hhead : resp.RequestMethod ≠ "HEAD")
    (hte : ¬ (chunked resp.TransferEncoding = true ∧ resp.ProtoAtLeast 1 1 = true)) :
    (privateDumpResponse lib resp true).out
      = Except.error (GoError.contentLength E.length P.length) := by
  have hE : E ≠ [] := by
    rintro rfl
    rw [gzip_NewReader_empty] at hnew
    cases hnew
  have hnil : resp.Body ≠ Body.nil := by
    intro h
    rw [h] at hyield
    exact hE hyield.symm
  have hno : resp.Body ≠ Body.noBody := by
    intro h
    rw [h] at hyield
    exact hE hyield.symm
  have hs := swapBody_true resp hnil
  rw [drainBody_of_clean resp.Body hnil hno hread hclose, hyield] at hs
  rw [privateDumpResponse_of_drained lib resp true _ _ hs]
  have hdec : privateDumpResponse.decodeBody lib { resp with Body := Body.mem E }
      = (Body.mem P, []) := by
    unfold privateDumpResponse.decodeBody
    have hg : ("gzip" : String) ≠ "br" := by decide
    simp only [hce, hg, if_false, if_true, hnew, hP]
  rw [hdec]
  have hlen : (E.length : Int) ≠ 0 := by
    intro h
    exact hE (List.length_eq_zero.mp (Int.ofNat_eq_zero.mp h))
  have := write_mismatch lib { resp with Body := Body.mem P } P rfl
    (by show resp.ContentLength ≠ 0; rw [hcl]; exact hlen)
    (by show resp.ContentLength ≠ -1; rw [hcl]; omega)
    (by show resp.ContentLength ≠ (P.length : Int); rw [hcl]; omega) hhead hte
  rw [this]
  show Except.error (GoError.contentLength resp.ContentLength P.length) = _
  rw [hcl]

/-- C6 fails on the code: for a response with `Content-Encoding: br` and a
declared length that is a positive byte count, `privateDumpResponse(resp,
false)` returns the error "http: ContentLength=... with Body length 0": the
brotli step reads `failureToReadBody{}`, drops `errNoBody` and leaves an empty
body (response not chunked, not to a HEAD request). -/
theorem dump_without_body_fails_for_br (lib : Lib) (resp : Response)
    (hce : resp.Header.Get "Content-Encoding" = "br")
    (hcl0 : resp.ContentLength ≠ 0) (hcl1 : resp.ContentLength ≠ -1)
    (hhead : resp.RequestMethod ≠ "HEAD")
    (hte : ¬ (chunked resp.TransferEncoding = true ∧ resp.ProtoAtLeast 1 1 = true)) :
    (privateDumpResponse lib resp false).out
      = Except.error (GoError.contentLength resp.ContentLength 0) := by
  have hs := swapBody_false resp
  rw [if_neg hcl0] at hs
  rw [privateDumpResponse_of_drained lib resp false _ _ hs]
  have hdec : privateDumpResponse.decodeBody lib { resp with Body := Body.failureToReadBody }
      = (Body.mem [], []) := by
    unfold privateDumpResponse.decodeBody
    simp only [hce, if_true]
    rfl
  rw [hdec]
  exact write_mismatch lib { resp with Body := Body.mem [] } [] rfl hcl0 hcl1
    (by simpa using hcl0) hhead hte

/-! ## What a failed `gzip.NewReader` leaves of the body -/

/-- A read of an in-memory reader leaves an in-memory reader with no more
unread bytes than before. -/
theorem Body.Read_memBelow (b : Body) (n k : Nat) (h : b.memBelow k) :
    (b.Read n).2.2.memBelow k := by
  obtain ⟨s, rfl, hs⟩ := h
  unfold Body.Read
  by_cases he : s = []
  · simp only [he, if_true]
    exact ⟨[], rfl, Nat.zero_le _⟩
  · simp only [he, if_false]
    exact ⟨s.drop n, rfl, by rw [List.length_drop]; omega⟩

/-- The method `bufio.Reader.Read` keeps the bound on the underlying reader. -/
theorem bufio_Read_memBelow (z : bufio.Reader) (n k : Nat) (h : z.rd.memBelow k) :
    (z.Read n).2.2.rd.memBelow k := by
  have hr := Body.Read_memBelow z.rd n k h
  have hr2 := Body.Read_memBelow z.rd bufio.defaultBufSize k h
  unfold bufio.Reader.Read
  by_cases hn : n = 0
  · rw [if_pos hn]
    split_ifs <;> exact h
  · rw [if_neg hn]
    by_cases hb : z.buf = []
    · rw [if_pos hb]
      cases herr : z.err with
      | some e => exact h
      | none =>
        simp only
        by_cases hbig : n ≥ bufio.defaultBufSize
        · rw [if_pos hbig]
          rcases hrd : z.rd.Read n with ⟨d, e, rd1⟩
          rw [hrd] at hr
          exact hr
        · rw [if_neg hbig]
          rcases hrd : z.rd.Read bufio.defaultBufSize with ⟨d, e, rd1⟩
          rw [hrd] at hr2
          simp only
          split_ifs <;> exact hr2
    · rw [if_neg hb]
      exact h

/-- The method `bufio.Reader.ReadByte` keeps the bound on the underlying
reader. -/
theorem bufio_ReadByte_memBelow (z : bufio.Reader) (k : Nat) (h : z.rd.memBelow k) :
    z.ReadByte.2.rd.memBelow k := by
  have hr := Body.Read_memBelow z.rd bufio.defaultBufSize k h
  unfold bufio.Reader.ReadByte
  cases hb : z.buf with
  | cons c rest => exact h
  | nil =>
    cases herr : z.err with
    | some e => exact h
    | none =>
      simp only
      rcases hrd : z.rd.Read bufio.defaultBufSize with ⟨d, e, rd1⟩
      rw [hrd] at hr
      cases d with
      | cons c rest => exact hr
      | nil =>
        cases e with
        | some e => exact hr
        | none => exact hr

/-- The loop of `io.ReadAtLeast` keeps the bound on the underlying reader. -/
theorem readAtLeast_memBelow (fuel : Nat) (z : bufio.Reader) (need : Nat) (acc : List Byte)
    (k : Nat) (h : z.rd.memBelow k) :
    (io.readAtLeast fuel z need acc).2.2.rd.memBelow k := by
  induction fuel generalizing z need acc with
  | zero => exact h
  | succ fuel ih =>
    unfold io.readAtLeast
    split_ifs
    · exact h
    · have hr := bufio_Read_memBelow z need k h
      rcases hrd : z.Read need with ⟨d, e, z1⟩
      rw [hrd] at hr
      cases e with
      | none => exact ih z1 _ _ hr
      | some e =>
        simp only
        split_ifs <;> exact hr

/-- The method `readString` keeps the bound on the underlying reader. -/
theorem readString_memBelow (fuel : Nat) (z : bufio.Reader) (acc : List Byte)
    (k : Nat) (h : z.rd.memBelow k) :
    (gzip.readString fuel z acc).2.rd.memBelow k := by
  induction fuel generalizing z acc with
  | zero => exact h
  | succ fuel ih =>
    unfold gzip.readString
    have hr := bufio_ReadByte_memBelow z k h
    rcases hrd : z.ReadByte with ⟨c, z1⟩
    rw [hrd] at hr
    cases c with
    | error e => exact hr
    | ok c =>
      simp only
      split_ifs
      · exact hr
      · exact ih z1 _ hr

/-- The optional strings of the header keep the bound on the underlying
reader. -/
theorem readOptionalString_memBelow (flg bit : Nat) (z : bufio.Reader) (digest : Nat)
    (k : Nat) (h : z.rd.memBelow k) :
    (gzip.readOptionalString flg bit z digest).2.rd.memBelow k := by
  unfold gzip.readOptionalString
  split_ifs
  · have hr := readString_memBelow 512 z [] k h
    rcases hrd : gzip.readString 512 z [] with ⟨c, z1⟩
    rw [hrd] at hr
    cases c <;> exact hr
  · exact h

/-- The function `io.ReadFull` keeps the bound on the underlying reader. -/
theorem ReadFull_memBelow (z : bufio.Reader) (n k : Nat) (h : z.rd.memBelow k) :
    (io.ReadFull z n).2.2.rd.memBelow k :=
  readAtLeast_memBelow (n + 1) z n [] k h

/-- The field FEXTRA keeps the bound on the underlying reader. -/
theorem readExtra_memBelow (flg : Nat) (z : bufio.Reader) (digest k : Nat)
    (h : z.rd.memBelow k) : (gzip.readExtra flg z digest).2.rd.memBelow k := by
  unfold gzip.readExtra
  split_ifs
  · have h1 := ReadFull_memBelow z 2 k h
    rcases hr1 : io.ReadFull z 2 with ⟨len, e1, z1⟩
    rw [hr1] at h1
    cases e1 with
    | some e => exact h1
    | none =>
      simp only
      have h2 := ReadFull_memBelow z1 (le len) k h1
      rcases hr2 : io.ReadFull z1 (le len) with ⟨data, e2, z2⟩
      rw [hr2] at h2
      cases e2 <;> exact h2
  · exact h

/-- The field FHCRC keeps the bound on the underlying reader. -/
theorem readHdrCrc_memBelow (flg : Nat) (z : bufio.Reader) (digest k : Nat)
    (h : z.rd.memBelow k) : (gzip.readHdrCrc flg z digest).2.rd.memBelow k := by
  unfold gzip.readHdrCrc
  split_ifs
  · have h1 := ReadFull_memBelow z 2 k h
    rcases hr1 : io.ReadFull z 2 with ⟨d, e1, z1⟩
    rw [hr1] at h1
    cases e1 with
    | some e => exact h1
    | none =>
      simp only
      split_ifs <;> exact h1
  · exact h

/-- Once the ten fixed bytes are read, `readHeader` keeps the bound on the
underlying reader. -/
theorem readHeader_memBelow (z : bufio.Reader) (k : Nat)
    (h : (io.ReadFull z 10).2.2.rd.memBelow k) :
    (gzip.readHeader z).2.rd.memBelow k := by
  unfold gzip.readHeader
  rcases h10 : io.ReadFull z 10 with ⟨hd, e, z1⟩
  rw [h10] at h
  cases e with
  | some e => exact h
  | none =>
    simp only
    split_ifs
    · exact h
    · have h2 := readExtra_memBelow (hd.getD 3 0) z1 (crc32.Update 0 hd) k h
      rcases hr2 : gzip.readExtra (hd.getD 3 0) z1 (crc32.Update 0 hd) with ⟨r2, z2⟩
      rw [hr2] at h2
      cases r2 with
      | error e => exact h2
      | ok d2 =>
        simp only
        have h3 := readOptionalString_memBelow (hd.getD 3 0) 8 z2 d2 k h2
        rcases hr3 : gzip.readOptionalString (hd.getD 3 0) 8 z2 d2 with ⟨r3, z3⟩
        rw [hr3] at h3
        cases r3 with
        | error e => exact h3
        | ok d3 =>
          simp only
          have h4 := readOptionalString_memBelow (hd.getD 3 0) 16 z3 d3 k h3
          rcases hr4 : gzip.readOptionalString (hd.getD 3 0) 16 z3 d3 with ⟨r4, z4⟩
          rw [hr4] at h4
          cases r4 with
          | error e => exact h4
          | ok d4 => exact readHdrCrc_memBelow (hd.getD 3 0) z4 d4 k h4

/-- The first read of `gzip.NewReader` on a non-empty in-memory body takes at
least one byte from it. -/
theorem ReadFull_first (E : List Byte) (hE : E ≠ []) :
    (io.ReadFull (bufio.NewReader (Body.mem E)) 10).2.2.rd.memBelow (E.length - 1) := by
  have hlen : 0 < E.length := List.length_pos.mpr hE
  have hd : E.take bufio.defaultBufSize ≠ [] := by
    intro h
    have := congrArg List.length h
    simp [bufio.defaultBufSize, List.length_take] at this
    exact hE this
  have hread : (bufio.NewReader (Body.mem E)).Read 10
      = ((E.take bufio.defaultBufSize).take 10, none,
         { buf := (E.take bufio.defaultBufSize).drop 10,
           rd := Body.mem (E.drop bufio.defaultBufSize), err := none }) := by
    simp [bufio.Reader.Read, bufio.NewReader, Body.Read, hE, hd, bufio.defaultBufSize]
  unfold io.ReadFull io.readAtLeast
  rw [if_neg (by decide), hread]
  apply readAtLeast_memBelow
  refine ⟨E.drop bufio.defaultBufSize, rfl, ?_⟩
  rw [List.length_drop]
  simp only [bufio.defaultBufSize]
  omega

/-- What a failed `gzip.NewReader` leaves of a non-empty in-memory body: an
in-memory reader with fewer unread bytes than the body had. -/
theorem gzip_NewReader_consumes (E : List Byte) (hE : E ≠ []) :
    (gzip.NewReader (Body.mem E)).2.memBelow (E.length - 1) := by
  have h := readHeader_memBelow (bufio.NewReader (Body.mem E)) (E.length - 1)
    (ReadFull_first E hE)
  unfold gzip.NewReader
  rcases hr : gzip.readHeader (bufio.NewReader (Body.mem E)) with ⟨e, z⟩
  rw [hr] at h
  cases e <;> exact h

/-- C5 fails on the code: for a response with `Content-Encoding: gzip` whose
non-empty body `E` is rejected by `gzip.NewReader` with the error `e`, the
failure is logged, but the body left for serialization has fewer bytes than
`E` (the failed reader took them), and with the declared length `len(E)`
`privateDumpResponse(resp, true)` returns the error "http: ContentLength=len(E)
with Body length n", `n < len(E)`, and no dump (response not chunked, not to a
HEAD request). -/
theorem gzip_failure_loses_body (lib : Lib) (resp : Response) (E : List Byte)
    (e : GoError) (rd : Body)
    (hce : resp.Header.Get "Content-Encoding" = "gzip")
    (hyield : resp.Body.readToEnd.1 = E) (hread : resp.Body.readToEnd.2.1 = none)
    (hclose : resp.Body.readToEnd.2.2.Close = none)
    (hE : E ≠ [])
    (hnew : gzip.NewReader (Body.mem E) = (Except.error e, rd))
    (hcl : resp.ContentLength = E.length)
    (hhead : resp.RequestMethod ≠ "HEAD")
    (hte : ¬ (chunked resp.TransferEncoding = true ∧ resp.ProtoAtLeast 1 1 = true)) :
    (privateDumpResponse lib resp true).log = [LogEntry.gzipFailed e]
    ∧ ∃ n, n < E.length ∧ rd.bytes.length = n
      ∧ (privateDumpResponse lib resp true).out
          = Except.error (GoError.contentLength E.length n) := by
  have hnil : resp.Body ≠ Body.nil := by
    intro h
    rw [h] at hyield
    exact hE hyield.symm
  have hno : resp.Body ≠ Body.noBody := by
    intro h
    rw [h] at hyield
    exact hE hyield.symm
  have hlen : 0 < E.length := List.length_pos.mpr hE
  obtain ⟨s, hs, hsl⟩ : rd.memBelow (E.length - 1) := by
    have := gzip_NewReader_consumes E hE
    rw [hnew] at this
    exact this
  have hsw := swapBody_true resp hnil
  rw [drainBody_of_clean resp.Body hnil hno hread hclose, hyield] at hsw
  rw [privateDumpResponse_of_drained lib resp true _ _ hsw]
  have hdec : privateDumpResponse.decodeBody lib { resp with Body := Body.mem E }
      = (Body.mem s, [LogEntry.gzipFailed e]) := by
    unfold privateDumpResponse.decodeBody
    have hg : ("gzip" : String) ≠ "br" := by decide
    simp only [hce, hg, if_false, if_true, hnew, hs]
  rw [hdec]
  refine ⟨rfl, s.length, by omega, by rw [hs]; rfl, ?_⟩
  have := write_mismatch lib { resp with Body := Body.mem s } s rfl
    (by show resp.ContentLength ≠ 0; rw [hcl]; omega)
    (by show resp.ContentLength ≠ -1; rw [hcl]; omega)
    (by show resp.ContentLength ≠ (s.length : Int); rw [hcl]; omega) hhead hte
  rw [this]
  show Except.error (GoError.contentLength resp.ContentLength s.length) = _
  rw [hcl]

/-- C1, amended: after `privateDumpResponse` returns, every field of the
response but the body, `ContentLength` included, has the value it had before
the call.  With `body` false the body is the original stream, untouched.  With
`body` true, when `drainBody` reports no error on the body, the body is left as
a reader that yields without error exactly the bytes of the original body,
also when decoding or serializing failed.  When `drainBody` fails, the call
returns its error and leaves the original stream as the failed attempt left
it. -/
theorem privateDumpResponse_restores (lib : Lib) (resp : Response) (body : Bool) :
    (privateDumpResponse lib resp body).resp.ContentLength = resp.ContentLength
    ∧ (privateDumpResponse lib resp body).resp
        = { resp with Body := (privateDumpResponse lib resp body).resp.Body }
    ∧ (body = false → (privateDumpResponse lib resp body).resp.Body = resp.Body)
    ∧ (body = true → (drainBody resp.Body).2.2 = none →
        (privateDumpResponse lib resp body).resp.Body.bytes = resp.Body.bytes
        ∧ (privateDumpResponse lib resp body).resp.Body.readToEnd.2.1 = none)
    ∧ (body = true → resp.Body ≠ Body.nil → ∀ e, (drainBody resp.Body).2.2 = some e →
        (privateDumpResponse lib resp body).out = Except.error e
        ∧ (privateDumpResponse lib resp body).resp.Body = (drainBody resp.Body).2.1) := by
  have hf := privateDumpResponse_fields lib resp body
  refine ⟨?_, hf, ?_, ?_, ?_⟩
  · rw [hf]
  · rintro rfl
    rw [privateDumpResponse_of_drained lib resp false _ _ (swapBody_false resp)]
  · rintro rfl hok
    by_cases hnil : resp.Body = Body.nil
    · rw [privateDumpResponse_of_drained lib resp true _ _ (swapBody_true_nil resp hnil), hnil]
      exact ⟨rfl, rfl⟩
    · have hs := swapBody_true resp hnil
      rw [hok] at hs
      rw [privateDumpResponse_of_drained lib resp true _ _ hs]
      exact drainBody_copy resp.Body hok
  · rintro rfl hnil e he
    have hs := swapBody_true resp hnil
    rw [he] at hs
    rw [privateDumpResponse_of_drain_error lib resp true _ _ e hs]
    exact ⟨rfl, rfl⟩

/-! ## Where the dump of C4 and C6 does succeed -/

/-- The transfer writer of a response that does not answer a HEAD request
keeps the body. -/
theorem newTransferWriter_body (r : Response) (hhead : r.RequestMethod ≠ "HEAD") :
    (newTransferWriter r).Body = r.Body := by
  have h1 : (r.RequestMethod == "HEAD") = false := by simpa using hhead
  unfold newTransferWriter
  simp only [h1, Bool.false_eq_true, if_false]

/-- The function `gzip.NewReader` fails on `failureToReadBody{}` with
`errNoBody` and leaves it in place. -/
theorem gzip_NewReader_sentinel :
    gzip.NewReader Body.failureToReadBody
      = (Except.error GoError.errNoBody, Body.failureToReadBody) := rfl

/-- The method `Response.Write` for the body `failureToReadBody{}` and a
declared length other than zero, no chunking and no HEAD request: the header
is written, then the copy of the body fails with `errNoBody`. -/
theorem Write_sentinel (lib : Lib) (r : Response)
    (hbody : r.Body = Body.failureToReadBody) (hcl0 : r.ContentLength ≠ 0)
    (hhead : r.RequestMethod ≠ "HEAD")
    (hte : ¬ (chunked r.TransferEncoding = true ∧ r.ProtoAtLeast 1 1 = true)) :
    ∃ head, r.Write lib = ({ head := head, body := [] }, some GoError.errNoBody) := by
  have key : ∀ r1 : Response, r1.Body = Body.failureToReadBody →
      r1.RequestMethod ≠ "HEAD" →
      ¬ (chunked r1.TransferEncoding = true ∧ r1.ProtoAtLeast 1 1 = true) →
      invalidTrailerKey (newTransferWriter r1).Trailer = none
      ∧ (newTransferWriter r1).writeBody lib = ([], some GoError.errNoBody) := by
    intro r1 hb1 hh1 ht1
    have hn1 : r1.Body ≠ Body.nil := by
      rw [hb1]
      exact fun h => Body.noConfusion h
    obtain ⟨-, -, -, -, h5⟩ := newTransferWriter_plain r1 hn1 hh1 ht1
    exact ⟨invalidTrailerKey_plain r1 h5,
      writeBody_sentinel lib _ ((newTransferWriter_body r1 hh1).trans hb1)⟩
  unfold Response.Write
  simp only [hcl0, false_and, if_false]
  split_ifs
  · obtain ⟨k1, k2⟩ := key { r with Close := true } hbody hhead hte
    rw [k1]
    simp only [k2]
    exact ⟨_, rfl⟩
  · obtain ⟨k1, k2⟩ := key r hbody hhead hte
    rw [k1]
    simp only [k2]
    exact ⟨_, rfl⟩

/-- The part of C6 that holds: for a response whose `Content-Encoding` is not
`br`, whose declared length is not zero and which neither answers a HEAD request
nor is written chunked, `privateDumpResponse(resp, false)` turns `errNoBody`
into success and returns a dump with an empty body section. -/
theorem dump_without_body_keeps_sentinel (lib : Lib) (resp : Response)
    (hbr : resp.Header.Get "Content-Encoding" ≠ "br")
    (hcl0 : resp.ContentLength ≠ 0)
    (hhead : resp.RequestMethod ≠ "HEAD")
    (hte : ¬ (chunked resp.TransferEncoding = true ∧ resp.ProtoAtLeast 1 1 = true)) :
    ∃ head, (privateDumpResponse lib resp false).out
      = Except.ok { head := head, body := [] } := by
  have hs := swapBody_false resp
  rw [if_neg hcl0] at hs
  rw [privateDumpResponse_of_drained lib resp false _ _ hs]
  have hdec : (privateDumpResponse.decodeBody lib
      { resp with Body := Body.failureToReadBody }).1 = Body.failureToReadBody := by
    unfold privateDumpResponse.decodeBody
    simp only [hbr, if_false, gzip_NewReader_sentinel]
    split_ifs <;> rfl
  rw [hdec]
  obtain ⟨head, hw⟩ := Write_sentinel lib { resp with Body := Body.failureToReadBody } rfl
    hcl0 hhead hte
  refine ⟨head, ?_⟩
  unfold privateDumpResponse.write
  rw [hw]
  rfl

/-- The method `Response.Write` for an in-memory body of unknown length, no
chunking and no HEAD request: the whole body is written. -/
theorem Write_mem_unknown (lib : Lib) (r : Response) (D : List Byte)
    (hbody : r.Body = Body.mem D) (hcl : r.ContentLength = -1)
    (hhead : r.RequestMethod ≠ "HEAD")
    (hte : ¬ (chunked r.TransferEncoding = true ∧ r.ProtoAtLeast 1 1 = true)) :
    ∃ head, r.Write lib = ({ head := head, body := D }, none) := by
  have hnil : r.Body ≠ Body.nil := by
    rw [hbody]
    exact fun h => Body.noConfusion h
  have key : ∀ r1 : Response, r1.Body = Body.mem D → r1.ContentLength = -1 →
      r1.RequestMethod ≠ "HEAD" →
      ¬ (chunked r1.TransferEncoding = true ∧ r1.ProtoAtLeast 1 1 = true) →
      invalidTrailerKey (newTransferWriter r1).Trailer = none
      ∧ (newTransferWriter r1).writeBody lib = (D, none) := by
    intro r1 hb1 hc1 hh1 ht1
    have hn1 : r1.Body ≠ Body.nil := by
      rw [hb1]
      exact fun h => Body.noConfusion h
    obtain ⟨h1, h2, -, h4, h5⟩ := newTransferWriter_plain r1 hn1 hh1 ht1
    exact ⟨invalidTrailerKey_plain r1 h5,
      writeBody_mem_unknown lib _ D (h1.trans hb1) (h2.trans hb1) h5 (h4.trans hc1)⟩
  unfold Response.Write
  have hcl0 : r.ContentLength ≠ 0 := by
    rw [hcl]
    decide
  simp only [hcl0, false_and, if_false]
  split_ifs
  · obtain ⟨k1, k2⟩ := key { r with Close := true } hbody hcl hhead hte
    rw [k1]
    simp only [k2]
    exact ⟨_, rfl⟩
  · obtain ⟨k1, k2⟩ := key r hbody hcl hhead hte
    rw [k1]
    simp only [k2]
    exact ⟨_, rfl⟩

/-- The part of C4 that holds: for a response with `Content-Encoding: gzip`
whose body is a gzip stream that decodes to the payload `P` and whose length
is not declared, `privateDumpResponse(resp, true)` returns without error a
dump whose body section is `P` (response not chunked, not to a HEAD
request). -/
theorem gzip_dump_with_unknown_length (lib : Lib) (resp : Response) (E P : List Byte)
    (gr : bufio.Reader) (rd : Body)
    (hce : resp.Header.Get "Content-Encoding" = "gzip")
    (hyield : resp.Body.readToEnd.1 = E) (hread : resp.Body.readToEnd.2.1 = none)
    (hclose : resp.Body.readToEnd.2.2.Close = none)
    (hnew : gzip.NewReader (Body.mem E) = (Except.ok gr, rd))
    (hP : gzip.ReadAll lib gr = P)
    (hcl : resp.ContentLength = -1)
    (hhead : resp.RequestMethod ≠ "HEAD")
    (hte : ¬ (chunked resp.TransferEncoding = true ∧ resp.ProtoAtLeast 1 1 = true)) :
    ∃ head, (privateDumpResponse lib resp true).out
      = Except.ok { head := head, body := P } := by
  have hE : E ≠ [] := by
    rintro rfl
    rw [gzip_NewReader_empty] at hnew
    cases hnew
  have hnil : resp.Body ≠ Body.nil := by
    intro h
    rw [h] at hyield
    exact hE hyield.symm
  have hno : resp.Body ≠ Body.noBody := by
    intro h
    rw [h] at hyield
    exact hE hyield.symm
  have hs := swapBody_true resp hnil
  rw [drainBody_of_clean resp.Body hnil hno hread hclose, hyield] at hs
  rw [privateDumpResponse_of_drained lib resp true _ _ hs]
  have hdec : privateDumpResponse.decodeBody lib { resp with Body := Body.mem E }
      = (Body.mem P, []) := by
    unfold privateDumpResponse.decodeBody
    have hg : ("gzip" : String) ≠ "br" := by decide
    simp only [hce, hg, if_false, if_true, hnew, hP]
  rw [hdec]
  obtain ⟨head, hw⟩ := Write_mem_unknown lib { resp with Body := Body.mem P } P rfl hcl
    hhead hte
  refine ⟨head, ?_⟩
  unfold privateDumpResponse.write
  rw [hw]
  rfl

/-! ## The statements at concrete responses -/

/-- C9 at a response whose body delivers three bytes and then fails with an
error of the transport, and at one whose body fails when it is closed. -/
theorem drain_failure_abandons_dump_witness :
    ((drainBody brokenResponse.Body).1 = Body.nil
      ∧ (drainBody brokenResponse.Body).2.2 = some (GoError.other 1)
      ∧ (privateDumpResponse refLib brokenResponse true).out = Except.error (GoError.other 1)
      ∧ (privateDumpResponse refLib brokenResponse true).log = [])
    ∧ ((drainBody unclosableResponse.Body).1 = Body.nil
      ∧ (drainBody unclosableResponse.Body).2.2 = some (GoError.other 2)
      ∧ (privateDumpResponse refLib unclosableResponse true).out
          = Except.error (GoError.other 2)
      ∧ (privateDumpResponse refLib unclosableResponse true).log = []) :=
  ⟨drain_failure_abandons_dump refLib brokenResponse (GoError.other 1) (Or.inl rfl),
   drain_failure_abandons_dump refLib unclosableResponse (GoError.other 2) (Or.inr ⟨rfl, rfl⟩)⟩

/-- C1, as stated, fails: the body of `brokenResponse` would have delivered
the bytes "abc" to the forwarding path; after `privateDumpResponse` failed
while draining it, the response holds the drained stream, which delivers no
byte.  And after a successful dump of `plainResponse` the body delivers the
same bytes as before, but it is the in-memory copy, no longer the stream the
response held before the call. -/
theorem drain_failure_loses_body :
    brokenResponse.Body.bytes = ascii "abc"
    ∧ (privateDumpResponse refLib brokenResponse true).out = Except.error (GoError.other 1)
    ∧ (privateDumpResponse refLib brokenResponse true).resp.Body.bytes = []
    ∧ (privateDumpResponse refLib brokenResponse true).resp.Body ≠ brokenResponse.Body
    ∧ (privateDumpResponse refLib plainResponse true).resp.Body = Body.mem (ascii "hello")
    ∧ (privateDumpResponse refLib plainResponse true).resp.Body ≠ plainResponse.Body := by
  refine ⟨rfl, rfl, rfl, ?_, rfl, ?_⟩
  · intro h
    have hb := congrArg Body.bytes h
    exact absurd hb (by decide)
  · intro h
    have hb : Body.mem (ascii "hello") = Body.stream (ascii "hello") none none := h
    cases hb

set_option maxRecDepth 100000 in
/-- C4 at the scenario of the specification: the 31 compressed bytes decode to
the 11 bytes of the JSON text, the declared length is 31, and the dump fails
with "http: ContentLength=31 with Body length 11". -/
theorem gzip_dump_fails_on_declared_length_witness :
    gzip.ReadAll refLib { buf := gzipOk.drop 10, rd := Body.mem [], err := none }
      = ascii "\x7b\"ok\":true\x7d"
    ∧ (privateDumpResponse refLib gzipResponse true).out
      = Except.error (GoError.contentLength 31 11) :=
  ⟨rfl,
   gzip_dump_fails_on_declared_length refLib gzipResponse gzipOk (ascii "\x7b\"ok\":true\x7d")
    { buf := gzipOk.drop 10, rd := Body.mem [], err := none } (Body.mem [])
    rfl rfl rfl rfl rfl rfl rfl (by decide) (by decide) (by decide)⟩

/-- C5 at a response labelled gzip whose body is the text "this is not gzip":
the failure is logged, the failed reader has taken all 16 bytes, and the dump
fails with "http: ContentLength=16 with Body length 0". -/
theorem gzip_failure_loses_body_witness :
    (privateDumpResponse refLib notGzipResponse true).log
      = [LogEntry.gzipFailed GoError.gzipErrHeader]
    ∧ ∃ n, n < 16 ∧ (Body.mem []).bytes.length = n
      ∧ (privateDumpResponse refLib notGzipResponse true).out
          = Except.error (GoError.contentLength 16 n) :=
  gzip_failure_loses_body refLib notGzipResponse (ascii "this is not gzip")
    GoError.gzipErrHeader (Body.mem []) rfl rfl rfl rfl (by decide) rfl rfl (by decide)
    (by decide)

/-- C6 at a response labelled `br` with a declared length of 5: the dump
without the body fails with "http: ContentLength=5 with Body length 0". -/
theorem dump_without_body_fails_for_br_witness :
    (privateDumpResponse refLib brResponse false).out
      = Except.error (GoError.contentLength 5 0) :=
  dump_without_body_fails_for_br refLib brResponse rfl (by decide) (by decide) (by decide)
    (by decide)

/-- C10, as stated, fails: these responses have no content encoding and a
body that matches the declared length.  For the one marked chunked the body
section is the chunk framing of the five bytes of the body; for the answer to
a HEAD request with a body of five bytes it is empty; for the answer to a
HEAD request with an empty body, a chunked transfer encoding and a trailer
that names the length, no dump is returned but the error "invalid Trailer
key".  The transport delivers a chunked response with an unknown length; its
dump has the same chunk framing. -/
theorem dump_frames_or_omits_body :
    (chunkedResponse.Header.Get "Content-Encoding" = ""
      ∧ chunkedResponse.Body.bytes = ascii "hello"
      ∧ chunkedResponse.ContentLength = 5
      ∧ (privateDumpResponse refLib chunkedResponse true).out.map Dump.body
          = Except.ok (ascii "5\r\nhello\r\n0\r\n\r\n"))
    ∧ (headResponse.Header.Get "Content-Encoding" = ""
      ∧ headResponse.Body.bytes = ascii "hello"
      ∧ headResponse.ContentLength = 5
      ∧ (privateDumpResponse refLib headResponse true).out.map Dump.body = Except.ok [])
    ∧ (headTrailerResponse.Header.Get "Content-Encoding" = ""
      ∧ headTrailerResponse.Body.bytes = []
      ∧ headTrailerResponse.ContentLength = 0
      ∧ (privateDumpResponse refLib headTrailerResponse true).out
          = Except.error (GoError.invalidTrailerKey "Content-Length"))
    ∧ (privateDumpResponse refLib { chunkedResponse with ContentLength := -1 } true).out.map
        Dump.body = Except.ok (ascii "5\r\nhello\r\n0\r\n\r\n") :=
  ⟨⟨rfl, rfl, rfl, rfl⟩, ⟨rfl, rfl, rfl, rfl⟩, ⟨rfl, rfl, rfl, rfl⟩, rfl⟩

/-- The amended C10 at the plain response, where the body section of the dump
is the five bytes of the body, and at the answer to a HEAD request with an
empty body, where it is empty. -/
theorem dump_identity_body_witness :
    ((∃ head, (privateDumpResponse refLib plainResponse true).out
        = Except.ok { head := head, body := ascii "hello" })
      ∧ (privateDumpResponse refLib plainResponse true).log = [])
    ∧ ((∃ head, (privateDumpResponse refLib headEmptyResponse true).out
        = Except.ok { head := head, body := [] })
      ∧ (privateDumpResponse refLib headEmptyResponse true).log = []) :=
  ⟨dump_identity_body refLib plainResponse (ascii "hello") (by decide) (by decide) rfl rfl rfl
    rfl (Or.inl ⟨by decide, by decide⟩),
   dump_identity_body refLib headEmptyResponse [] (by decide) (by decide) rfl rfl rfl rfl
    (Or.inr ⟨rfl, rfl, fun _ kv hkv => by
      rw [List.mem_singleton.mp hkv]
      decide⟩)⟩

/-- The Brotli decoder of `refLib` at the stream an encoder makes of the five
bytes "hello": window size, one stored meta-block, the empty last
meta-block. -/
theorem refLib_brotli_stored :
    refLib.brotli [0x0b, 0x02, 0x80, 104, 101, 108, 108, 111, 0x03] = ascii "hello" := rfl

end GoProxy
